import Mathlib

/-!
Verification of the audio recording and encryption pipeline of the
mediscribe-recording Chrome extension.

The development shallowly embeds the algorithmic core of the repository:

* the WAV header writer `createWavHeader` and `writeString`
  (src/pages/offscreen/App.tsx), modelled over byte lists (`List Nat`,
  entries < 256) with JavaScript `DataView` little-endian semantics
  (`setUint32`/`setUint16` store their argument modulo 2^32 / 2^16);
* the PCM encoder `floatTo16BitPCM`; JavaScript numbers are modelled by
  rationals (`ℚ`), and the `Int16Array` element-conversion (ToInt16:
  truncation toward zero followed by a two's-complement wrap) is made
  explicit;
* the linear-interpolation resampler `resampleAudio` (floats as `ℚ`,
  `Math.round x` as `⌊x + 1/2⌋`, `Math.floor` as `⌊·⌋`);
* the recording session of `startRecording` / `stopHandler`: the mutable
  variables `totalSamples`, the bytes appended to the OPFS file, and the
  header finally patched in, are collected in a `RecSession` record; the
  per-callback body of `scriptProcessor.onaudioprocess` (stereo-to-mono
  mix, resample, PCM-encode, write, count) becomes the transition
  `processFrame`, with an explicit flag for the success of the awaited
  `writable.write` (the `try`/`catch` around it);
* the encryption codec `encryptData` / `decryptData` (crypto.ts):
  the envelope layout is taken from the source, and the platform
  primitives it invokes (`crypto.subtle` AES-256-CBC with PKCS#7 padding,
  and PBKDF2-HMAC-SHA-256) are implemented in full from their standard
  specifications, which the source names explicitly.
-/

/-! ## Byte-buffer primitives (JavaScript DataView, little endian) -/

/-- Model of `view.setUint8(off, v)`: store `v` modulo 2^8. -/
def setU8 (buf : List Nat) (off v : Nat) : List Nat :=
  buf.set off (v % 256)

/-- Model of `writeString(view, offset, s)` from App.tsx: write the char
codes of `s` at consecutive offsets. -/
def writeBytesAt : List Nat → Nat → List Nat → List Nat
  | buf, _, [] => buf
  | buf, off, c :: cs => writeBytesAt (setU8 buf off c) (off + 1) cs

/-- Model of `view.setUint16(off, v, true)`: two bytes, little endian,
value taken modulo 2^16. -/
def setU16 (buf : List Nat) (off v : Nat) : List Nat :=
  setU8 (setU8 buf off v) (off + 1) (v / 256)

/-- Model of `view.setUint32(off, v, true)`: four bytes, little endian,
value taken modulo 2^32. -/
def setU32 (buf : List Nat) (off v : Nat) : List Nat :=
  setU8 (setU8 (setU8 (setU8 buf off v) (off + 1) (v / 256))
    (off + 2) (v / 65536)) (off + 3) (v / 16777216)

/-- Little-endian four-byte encoding of `n % 2^32`, used to state what the
header fields hold. -/
def le32 (n : Nat) : List Nat :=
  [n % 256, n / 256 % 256, n / 65536 % 256, n / 16777216 % 256]

/-- Read back a little-endian 32-bit field at `off`. -/
def readU32LE (l : List Nat) (off : Nat) : Nat :=
  l.getD off 0 + 256 * l.getD (off + 1) 0 + 65536 * l.getD (off + 2) 0 +
    16777216 * l.getD (off + 3) 0

/-! ## createWavHeader (App.tsx lines 67-97) -/

/-- Model of `createWavHeader(dataLength, sampleRate, numChannels)`:
a fresh 44-byte `ArrayBuffer` (zero initialised) written through a
`DataView` exactly in source order. Char codes: RIFF = 82,73,70,70;
WAVE = 87,65,86,69; "fmt " = 102,109,116,32; data = 100,97,116,97. -/
def createWavHeader (dataLength sampleRate numChannels : Nat) : List Nat :=
  let b0 := List.replicate 44 0
  let b1 := writeBytesAt b0 0 [82, 73, 70, 70]
  let b2 := setU32 b1 4 (36 + dataLength)
  let b3 := writeBytesAt b2 8 [87, 65, 86, 69]
  let b4 := writeBytesAt b3 12 [102, 109, 116, 32]
  let b5 := setU32 b4 16 16
  let b6 := setU16 b5 20 1
  let b7 := setU16 b6 22 numChannels
  let b8 := setU32 b7 24 sampleRate
  let b9 := setU32 b8 28 (sampleRate * numChannels * 2)
  let b10 := setU16 b9 32 (numChannels * 2)
  let b11 := setU16 b10 34 16
  let b12 := writeBytesAt b11 36 [100, 97, 116, 97]
  setU32 b12 40 dataLength

/-! ## floatTo16BitPCM (App.tsx lines 100-107) -/

/-- Clamp of `Math.max(-1, Math.min(1, x))`. -/
def clampUnit (s : ℚ) : ℚ := max (-1) (min 1 s)

/-- Truncation toward zero of a rational, as performed by the JavaScript
ToIntegerOrInfinity step of an `Int16Array` element write. -/
def ratTruncToInt (q : ℚ) : ℤ := if q < 0 then -(⌊-q⌋) else ⌊q⌋

/-- Two's-complement wrap of the ToInt16 conversion: reduce modulo 2^16
into [-2^15, 2^15). -/
def toInt16 (n : ℤ) : ℤ := (n + 32768) % 65536 - 32768

/-- Model of `floatTo16BitPCM`: per sample, clamp to [-1,1], scale
(negative by 0x8000 = 32768, non-negative by 0x7fff = 32767), then store
into an `Int16Array` (truncate toward zero, wrap to 16-bit). -/
def floatTo16BitPCM (float32Array : List ℚ) : List ℤ :=
  float32Array.map (fun x =>
    let s := clampUnit x
    toInt16 (ratTruncToInt (if s < 0 then s * 32768 else s * 32767)))

/-- Encoder that the spec sentence describes (clamp, scale, round to the
NEAREST representable integer); kept separate from the source-derived
`floatTo16BitPCM` so the two can be compared. -/
def pcmRoundNearest (x : ℚ) : ℤ :=
  let s := clampUnit x
  ⌊(if s < 0 then s * 32768 else s * 32767) + 1 / 2⌋

/-! ## resampleAudio (App.tsx lines 110-128) -/

/-- JavaScript `Math.round` on rationals: round half toward positive
infinity. -/
def jsRound (q : ℚ) : ℤ := ⌊q + 1 / 2⌋

/-- Model of `resampleAudio(audioBuffer, fromSampleRate, toSampleRate)`.
Identity when the rates coincide; otherwise output length
`Math.round(length / ratio)` with `ratio = from / to`, and linear
interpolation between the floor index and the ceil index clamped to
`length - 1`. Out-of-range reads (impossible for positive rates, see
`resampleAudio_spec`) are modelled by `List.getD` with default 0. -/
def resampleAudio (audioBuffer : List ℚ) (fromSampleRate toSampleRate : ℚ) : List ℚ :=
  if fromSampleRate = toSampleRate then audioBuffer
  else
    let ratio := fromSampleRate / toSampleRate
    let newLength := (jsRound ((audioBuffer.length : ℚ) / ratio)).toNat
    (List.range newLength).map (fun (i : Nat) =>
      let srcIndex : ℚ := (i : ℚ) * ratio
      let srcIndexFloor : ℤ := ⌊srcIndex⌋
      let srcIndexCeil : ℤ := min (srcIndexFloor + 1) ((audioBuffer.length : ℤ) - 1)
      let t : ℚ := srcIndex - (srcIndexFloor : ℚ)
      audioBuffer.getD srcIndexFloor.toNat 0 * (1 - t) +
        audioBuffer.getD srcIndexCeil.toNat 0 * t)

/-! ## Recording session (App.tsx lines 202-487) -/

/-- Session phase. The source tracks Recording via the `isRecording` flag
and the duck-typed `recorder` object; `error` is the Error state named by
the specification's state machine, included so that claims about it can be
stated (no transition of the code below ever produces it). -/
inductive RecPhase
  | recording
  | stopped
  | error
deriving DecidableEq

/-- State owned by one recording session: the phase, the running
`totalSamples` counter, the number of PCM body bytes appended after the
44-byte header, and the header bytes currently at the start of the file. -/
structure RecSession where
  phase : RecPhase
  totalSamples : Nat
  bodyBytes : Nat
  header : List Nat
deriving DecidableEq

/-- Session right after `startRecording` reached its steady state: the
placeholder header `createWavHeader(0, 16000, 1)` has been written and no
samples have been counted. -/
def initSession : RecSession :=
  { phase := RecPhase.recording
    totalSamples := 0
    bodyBytes := 0
    header := createWavHeader 0 16000 1 }

/-- One `scriptProcessor.onaudioprocess` callback: mix the two channels to
mono by averaging, resample from the AudioContext rate to 16000, encode to
16-bit PCM, then `await writable.write(...)`. The Boolean in the frame
records whether that write succeeded; on success the write appends
2 bytes per PCM value and `totalSamples += resampled.length`, on failure
the `catch` only logs and the state is left as it was. -/
def processFrame (sampleRate : ℚ) (st : RecSession)
    (frame : (List ℚ × List ℚ) × Bool) : RecSession :=
  if st.phase ≠ RecPhase.recording then st
  else
    let mono := (frame.1.1.zip frame.1.2).map (fun p => (p.1 + p.2) / 2)
    let resampled := resampleAudio mono sampleRate 16000
    let pcm := floatTo16BitPCM resampled
    if frame.2 then
      { st with
        totalSamples := st.totalSamples + resampled.length
        bodyBytes := st.bodyBytes + 2 * pcm.length }
    else st

/-- The `stopHandler` of App.tsx: a no-op unless recording; otherwise it
closes the stream and rewrites the 44-byte header at offset 0 with
`createWavHeader(totalSamples * 2, 16000, 1)`. -/
def stopSession (st : RecSession) : RecSession :=
  if st.phase = RecPhase.recording then
    { st with
      phase := RecPhase.stopped
      header := createWavHeader (st.totalSamples * 2) 16000 1 }
  else st

/-- A whole session at a fixed AudioContext sample rate: start, then one
`processFrame` per delivered audio frame. -/
def replaySession (sampleRate : ℚ) (frames : List ((List ℚ × List ℚ) × Bool)) : RecSession :=
  frames.foldl (processFrame sampleRate) initSession

/-! ## Helper lemmas -/

theorem writeBytesAt_length (s : List Nat) : ∀ (buf : List Nat) (off : Nat),
    (writeBytesAt buf off s).length = buf.length := by
  induction s with
  | nil => intro buf off; rfl
  | cons c cs ih =>
    intro buf off
    simp [writeBytesAt, ih, setU8]

theorem createWavHeader_length (d sr nc : Nat) :
    (createWavHeader d sr nc).length = 44 := by
  simp [createWavHeader, setU32, setU16, setU8, writeBytesAt_length]

theorem le32_recompose (n : Nat) :
    n % 256 + 256 * (n / 256 % 256) + 65536 * (n / 65536 % 256) +
      16777216 * (n / 16777216 % 256) = n % 4294967296 := by
  omega

/-- Fully written-out 44-byte layout of `createWavHeader d 16000 1`,
obtained by replaying the DataView writes one at a time. -/
theorem createWavHeader_16000_mono (d : Nat) :
    createWavHeader d 16000 1 =
      [82, 73, 70, 70] ++ le32 (36 + d) ++
      [87, 65, 86, 69, 102, 109, 116, 32,
       16, 0, 0, 0, 1, 0, 1, 0,
       128, 62, 0, 0, 0, 125, 0, 0,
       2, 0, 16, 0, 100, 97, 116, 97] ++ le32 d := by
  simp only [createWavHeader]
  rw [show writeBytesAt (List.replicate 44 0) 0 [82, 73, 70, 70] = [82, 73, 70, 70, 0, 0, 0, 0, 0, 0, 0, 0, 0, 0, 0, 0, 0, 0, 0, 0, 0, 0, 0, 0, 0, 0, 0, 0, 0, 0, 0, 0, 0, 0, 0, 0, 0, 0, 0, 0, 0, 0, 0, 0] from rfl]
  rw [show setU32 ([82, 73, 70, 70, 0, 0, 0, 0, 0, 0, 0, 0, 0, 0, 0, 0, 0, 0, 0, 0, 0, 0, 0, 0, 0, 0, 0, 0, 0, 0, 0, 0, 0, 0, 0, 0, 0, 0, 0, 0, 0, 0, 0, 0]) 4 (36 + d) = [82, 73, 70, 70, (36 + d) % 256, (36 + d) / 256 % 256, (36 + d) / 65536 % 256, (36 + d) / 16777216 % 256, 0, 0, 0, 0, 0, 0, 0, 0, 0, 0, 0, 0, 0, 0, 0, 0, 0, 0, 0, 0, 0, 0, 0, 0, 0, 0, 0, 0, 0, 0, 0, 0, 0, 0, 0, 0] from rfl]
  rw [show writeBytesAt ([82, 73, 70, 70, (36 + d) % 256, (36 + d) / 256 % 256, (36 + d) / 65536 % 256, (36 + d) / 16777216 % 256, 0, 0, 0, 0, 0, 0, 0, 0, 0, 0, 0, 0, 0, 0, 0, 0, 0, 0, 0, 0, 0, 0, 0, 0, 0, 0, 0, 0, 0, 0, 0, 0, 0, 0, 0, 0]) 8 [87, 65, 86, 69] = [82, 73, 70, 70, (36 + d) % 256, (36 + d) / 256 % 256, (36 + d) / 65536 % 256, (36 + d) / 16777216 % 256, 87, 65, 86, 69, 0, 0, 0, 0, 0, 0, 0, 0, 0, 0, 0, 0, 0, 0, 0, 0, 0, 0, 0, 0, 0, 0, 0, 0, 0, 0, 0, 0, 0, 0, 0, 0] from rfl]
  rw [show writeBytesAt ([82, 73, 70, 70, (36 + d) % 256, (36 + d) / 256 % 256, (36 + d) / 65536 % 256, (36 + d) / 16777216 % 256, 87, 65, 86, 69, 0, 0, 0, 0, 0, 0, 0, 0, 0, 0, 0, 0, 0, 0, 0, 0, 0, 0, 0, 0, 0, 0, 0, 0, 0, 0, 0, 0, 0, 0, 0, 0]) 12 [102, 109, 116, 32] = [82, 73, 70, 70, (36 + d) % 256, (36 + d) / 256 % 256, (36 + d) / 65536 % 256, (36 + d) / 16777216 % 256, 87, 65, 86, 69, 102, 109, 116, 32, 0, 0, 0, 0, 0, 0, 0, 0, 0, 0, 0, 0, 0, 0, 0, 0, 0, 0, 0, 0, 0, 0, 0, 0, 0, 0, 0, 0] from rfl]
  rw [show setU32 ([82, 73, 70, 70, (36 + d) % 256, (36 + d) / 256 % 256, (36 + d) / 65536 % 256, (36 + d) / 16777216 % 256, 87, 65, 86, 69, 102, 109, 116, 32, 0, 0, 0, 0, 0, 0, 0, 0, 0, 0, 0, 0, 0, 0, 0, 0, 0, 0, 0, 0, 0, 0, 0, 0, 0, 0, 0, 0]) 16 16 = [82, 73, 70, 70, (36 + d) % 256, (36 + d) / 256 % 256, (36 + d) / 65536 % 256, (36 + d) / 16777216 % 256, 87, 65, 86, 69, 102, 109, 116, 32, 16, 0, 0, 0, 0, 0, 0, 0, 0, 0, 0, 0, 0, 0, 0, 0, 0, 0, 0, 0, 0, 0, 0, 0, 0, 0, 0, 0] from rfl]
  rw [show setU16 ([82, 73, 70, 70, (36 + d) % 256, (36 + d) / 256 % 256, (36 + d) / 65536 % 256, (36 + d) / 16777216 % 256, 87, 65, 86, 69, 102, 109, 116, 32, 16, 0, 0, 0, 0, 0, 0, 0, 0, 0, 0, 0, 0, 0, 0, 0, 0, 0, 0, 0, 0, 0, 0, 0, 0, 0, 0, 0]) 20 1 = [82, 73, 70, 70, (36 + d) % 256, (36 + d) / 256 % 256, (36 + d) / 65536 % 256, (36 + d) / 16777216 % 256, 87, 65, 86, 69, 102, 109, 116, 32, 16, 0, 0, 0, 1, 0, 0, 0, 0, 0, 0, 0, 0, 0, 0, 0, 0, 0, 0, 0, 0, 0, 0, 0, 0, 0, 0, 0] from rfl]
  rw [show setU16 ([82, 73, 70, 70, (36 + d) % 256, (36 + d) / 256 % 256, (36 + d) / 65536 % 256, (36 + d) / 16777216 % 256, 87, 65, 86, 69, 102, 109, 116, 32, 16, 0, 0, 0, 1, 0, 0, 0, 0, 0, 0, 0, 0, 0, 0, 0, 0, 0, 0, 0, 0, 0, 0, 0, 0, 0, 0, 0]) 22 1 = [82, 73, 70, 70, (36 + d) % 256, (36 + d) / 256 % 256, (36 + d) / 65536 % 256, (36 + d) / 16777216 % 256, 87, 65, 86, 69, 102, 109, 116, 32, 16, 0, 0, 0, 1, 0, 1, 0, 0, 0, 0, 0, 0, 0, 0, 0, 0, 0, 0, 0, 0, 0, 0, 0, 0, 0, 0, 0] from rfl]
  rw [show setU32 ([82, 73, 70, 70, (36 + d) % 256, (36 + d) / 256 % 256, (36 + d) / 65536 % 256, (36 + d) / 16777216 % 256, 87, 65, 86, 69, 102, 109, 116, 32, 16, 0, 0, 0, 1, 0, 1, 0, 0, 0, 0, 0, 0, 0, 0, 0, 0, 0, 0, 0, 0, 0, 0, 0, 0, 0, 0, 0]) 24 16000 = [82, 73, 70, 70, (36 + d) % 256, (36 + d) / 256 % 256, (36 + d) / 65536 % 256, (36 + d) / 16777216 % 256, 87, 65, 86, 69, 102, 109, 116, 32, 16, 0, 0, 0, 1, 0, 1, 0, 128, 62, 0, 0, 0, 0, 0, 0, 0, 0, 0, 0, 0, 0, 0, 0, 0, 0, 0, 0] from rfl]
  rw [show setU32 ([82, 73, 70, 70, (36 + d) % 256, (36 + d) / 256 % 256, (36 + d) / 65536 % 256, (36 + d) / 16777216 % 256, 87, 65, 86, 69, 102, 109, 116, 32, 16, 0, 0, 0, 1, 0, 1, 0, 128, 62, 0, 0, 0, 0, 0, 0, 0, 0, 0, 0, 0, 0, 0, 0, 0, 0, 0, 0]) 28 (16000 * 1 * 2) = [82, 73, 70, 70, (36 + d) % 256, (36 + d) / 256 % 256, (36 + d) / 65536 % 256, (36 + d) / 16777216 % 256, 87, 65, 86, 69, 102, 109, 116, 32, 16, 0, 0, 0, 1, 0, 1, 0, 128, 62, 0, 0, 0, 125, 0, 0, 0, 0, 0, 0, 0, 0, 0, 0, 0, 0, 0, 0] from rfl]
  rw [show setU16 ([82, 73, 70, 70, (36 + d) % 256, (36 + d) / 256 % 256, (36 + d) / 65536 % 256, (36 + d) / 16777216 % 256, 87, 65, 86, 69, 102, 109, 116, 32, 16, 0, 0, 0, 1, 0, 1, 0, 128, 62, 0, 0, 0, 125, 0, 0, 0, 0, 0, 0, 0, 0, 0, 0, 0, 0, 0, 0]) 32 (1 * 2) = [82, 73, 70, 70, (36 + d) % 256, (36 + d) / 256 % 256, (36 + d) / 65536 % 256, (36 + d) / 16777216 % 256, 87, 65, 86, 69, 102, 109, 116, 32, 16, 0, 0, 0, 1, 0, 1, 0, 128, 62, 0, 0, 0, 125, 0, 0, 2, 0, 0, 0, 0, 0, 0, 0, 0, 0, 0, 0] from rfl]
  rw [show setU16 ([82, 73, 70, 70, (36 + d) % 256, (36 + d) / 256 % 256, (36 + d) / 65536 % 256, (36 + d) / 16777216 % 256, 87, 65, 86, 69, 102, 109, 116, 32, 16, 0, 0, 0, 1, 0, 1, 0, 128, 62, 0, 0, 0, 125, 0, 0, 2, 0, 0, 0, 0, 0, 0, 0, 0, 0, 0, 0]) 34 16 = [82, 73, 70, 70, (36 + d) % 256, (36 + d) / 256 % 256, (36 + d) / 65536 % 256, (36 + d) / 16777216 % 256, 87, 65, 86, 69, 102, 109, 116, 32, 16, 0, 0, 0, 1, 0, 1, 0, 128, 62, 0, 0, 0, 125, 0, 0, 2, 0, 16, 0, 0, 0, 0, 0, 0, 0, 0, 0] from rfl]
  rw [show writeBytesAt ([82, 73, 70, 70, (36 + d) % 256, (36 + d) / 256 % 256, (36 + d) / 65536 % 256, (36 + d) / 16777216 % 256, 87, 65, 86, 69, 102, 109, 116, 32, 16, 0, 0, 0, 1, 0, 1, 0, 128, 62, 0, 0, 0, 125, 0, 0, 2, 0, 16, 0, 0, 0, 0, 0, 0, 0, 0, 0]) 36 [100, 97, 116, 97] = [82, 73, 70, 70, (36 + d) % 256, (36 + d) / 256 % 256, (36 + d) / 65536 % 256, (36 + d) / 16777216 % 256, 87, 65, 86, 69, 102, 109, 116, 32, 16, 0, 0, 0, 1, 0, 1, 0, 128, 62, 0, 0, 0, 125, 0, 0, 2, 0, 16, 0, 100, 97, 116, 97, 0, 0, 0, 0] from rfl]
  rw [show setU32 ([82, 73, 70, 70, (36 + d) % 256, (36 + d) / 256 % 256, (36 + d) / 65536 % 256, (36 + d) / 16777216 % 256, 87, 65, 86, 69, 102, 109, 116, 32, 16, 0, 0, 0, 1, 0, 1, 0, 128, 62, 0, 0, 0, 125, 0, 0, 2, 0, 16, 0, 100, 97, 116, 97, 0, 0, 0, 0]) 40 d = [82, 73, 70, 70, (36 + d) % 256, (36 + d) / 256 % 256, (36 + d) / 65536 % 256, (36 + d) / 16777216 % 256, 87, 65, 86, 69, 102, 109, 116, 32, 16, 0, 0, 0, 1, 0, 1, 0, 128, 62, 0, 0, 0, 125, 0, 0, 2, 0, 16, 0, 100, 97, 116, 97, d % 256, d / 256 % 256, d / 65536 % 256, d / 16777216 % 256] from rfl]
  rfl

theorem readU32LE_wav_40 (d : Nat) :
    readU32LE (createWavHeader d 16000 1) 40 = d % 4294967296 := by
  rw [createWavHeader_16000_mono]
  rw [show readU32LE ([82, 73, 70, 70] ++ le32 (36 + d) ++
      [87, 65, 86, 69, 102, 109, 116, 32,
       16, 0, 0, 0, 1, 0, 1, 0,
       128, 62, 0, 0, 0, 125, 0, 0,
       2, 0, 16, 0, 100, 97, 116, 97] ++ le32 d) 40 =
    d % 256 + 256 * (d / 256 % 256) + 65536 * (d / 65536 % 256) +
      16777216 * (d / 16777216 % 256) from rfl]
  omega

theorem readU32LE_wav_4 (d : Nat) :
    readU32LE (createWavHeader d 16000 1) 4 = (36 + d) % 4294967296 := by
  rw [createWavHeader_16000_mono]
  rw [show readU32LE ([82, 73, 70, 70] ++ le32 (36 + d) ++
      [87, 65, 86, 69, 102, 109, 116, 32,
       16, 0, 0, 0, 1, 0, 1, 0,
       128, 62, 0, 0, 0, 125, 0, 0,
       2, 0, 16, 0, 100, 97, 116, 97] ++ le32 d) 4 =
    (36 + d) % 256 + 256 * ((36 + d) / 256 % 256) + 65536 * ((36 + d) / 65536 % 256) +
      16777216 * ((36 + d) / 16777216 % 256) from rfl]
  omega

/-- Little-endian two-byte encoding of `n % 2^16`. -/
def le16 (n : Nat) : List Nat := [n % 256, n / 256 % 256]

theorem floatTo16BitPCM_length (xs : List ℚ) :
    (floatTo16BitPCM xs).length = xs.length := by
  simp [floatTo16BitPCM]

theorem processFrame_phase (r : ℚ) (st : RecSession)
    (f : (List ℚ × List ℚ) × Bool) : (processFrame r st f).phase = st.phase := by
  unfold processFrame
  split
  · rfl
  · dsimp only
    split <;> rfl

theorem processFrame_header (r : ℚ) (st : RecSession)
    (f : (List ℚ × List ℚ) × Bool) : (processFrame r st f).header = st.header := by
  unfold processFrame
  split
  · rfl
  · dsimp only
    split <;> rfl

theorem processFrame_inv (r : ℚ) (st : RecSession)
    (f : (List ℚ × List ℚ) × Bool) (h : st.bodyBytes = 2 * st.totalSamples) :
    (processFrame r st f).bodyBytes = 2 * (processFrame r st f).totalSamples := by
  unfold processFrame
  split
  · exact h
  · dsimp only
    split
    · simp only [floatTo16BitPCM_length]
      omega
    · exact h

theorem foldl_phase (r : ℚ) (fs : List ((List ℚ × List ℚ) × Bool)) :
    ∀ st : RecSession, (List.foldl (processFrame r) st fs).phase = st.phase := by
  induction fs with
  | nil => intro st; rfl
  | cons f fs ih =>
    intro st
    rw [List.foldl_cons, ih, processFrame_phase]

theorem foldl_header (r : ℚ) (fs : List ((List ℚ × List ℚ) × Bool)) :
    ∀ st : RecSession, (List.foldl (processFrame r) st fs).header = st.header := by
  induction fs with
  | nil => intro st; rfl
  | cons f fs ih =>
    intro st
    rw [List.foldl_cons, ih, processFrame_header]

theorem foldl_inv (r : ℚ) (fs : List ((List ℚ × List ℚ) × Bool)) :
    ∀ st : RecSession, st.bodyBytes = 2 * st.totalSamples →
      (List.foldl (processFrame r) st fs).bodyBytes =
        2 * (List.foldl (processFrame r) st fs).totalSamples := by
  induction fs with
  | nil => intro st h; exact h
  | cons f fs ih =>
    intro st h
    rw [List.foldl_cons]
    exact ih _ (processFrame_inv r st f h)

theorem replay_phase (r : ℚ) (fs : List ((List ℚ × List ℚ) × Bool)) :
    (replaySession r fs).phase = RecPhase.recording :=
  foldl_phase r fs initSession

/-! ## Claim theorems: container format and session -/

/-- C3: for every dataLength, `createWavHeader(dataLength, 16000, 1)` is the
bit-exact 44-byte header: "RIFF", LE32 (36+dataLength), "WAVE", "fmt ",
LE32 16, LE16 1 (PCM), LE16 1 (mono), LE32 16000, LE32 32000 (byte rate),
LE16 2 (block align), LE16 16 (bits per sample), "data",
LE32 dataLength. DataView stores values modulo 2^32, which `le32`
reflects. -/
theorem wavHeader_bitexact (d : Nat) :
    createWavHeader d 16000 1 =
      [82, 73, 70, 70] ++ le32 (36 + d) ++ [87, 65, 86, 69] ++
      [102, 109, 116, 32] ++ le32 16 ++ le16 1 ++ le16 1 ++ le32 16000 ++
      le32 32000 ++ le16 2 ++ le16 16 ++ [100, 97, 116, 97] ++ le32 d := by
  rw [createWavHeader_16000_mono]
  rfl

/-- C1: a completed stop() finalizes the header: with N the session's total
count of resampled samples written, the finalized header is 44 bytes, its
data-length field (bytes 40-43) holds 2N and its RIFF chunk-size field
(bytes 4-7) holds 36 + 2N; a zero-frame session (N = 0) still finalizes to
the valid 44-byte header with dataLength 0. -/
theorem session_stop_finalizes_header (r : ℚ)
    (frames : List ((List ℚ × List ℚ) × Bool))
    (h : 36 + 2 * (replaySession r frames).totalSamples < 4294967296) :
    (stopSession (replaySession r frames)).header.length = 44 ∧
    readU32LE (stopSession (replaySession r frames)).header 40 =
      2 * (replaySession r frames).totalSamples ∧
    readU32LE (stopSession (replaySession r frames)).header 4 =
      36 + 2 * (replaySession r frames).totalSamples ∧
    (frames = [] → readU32LE (stopSession (replaySession r frames)).header 40 = 0) := by
  have hstop : (stopSession (replaySession r frames)).header =
      createWavHeader ((replaySession r frames).totalSamples * 2) 16000 1 := by
    unfold stopSession
    rw [if_pos (replay_phase r frames)]
  refine ⟨?_, ?_, ?_, ?_⟩
  · rw [hstop]; exact createWavHeader_length _ _ _
  · rw [hstop, readU32LE_wav_40]; omega
  · rw [hstop, readU32LE_wav_4]; omega
  · intro hf
    subst hf
    rw [hstop, readU32LE_wav_40]
    rfl

/-- Witness for C1 at the concrete zero-frame session. -/
theorem session_stop_finalizes_header_witness :
    (36 + 2 * (replaySession 48000 []).totalSamples < 4294967296) ∧
    ((stopSession (replaySession 48000 [])).header.length = 44 ∧
    readU32LE (stopSession (replaySession 48000 [])).header 40 =
      2 * (replaySession 48000 []).totalSamples ∧
    readU32LE (stopSession (replaySession 48000 [])).header 4 =
      36 + 2 * (replaySession 48000 []).totalSamples ∧
    ([] = ([] : List ((List ℚ × List ℚ) × Bool)) →
      readU32LE (stopSession (replaySession 48000 [])).header 40 = 0)) :=
  ⟨by decide, session_stop_finalizes_header 48000 [] (by decide)⟩

/-- C8 counterexample: the claim says both length fields of the placeholder
header are zero, but the RIFF chunk-size field of
`createWavHeader(0, 16000, 1)` holds 36 + 0 = 36, not 0. -/
theorem placeholder_chunkSize_not_zero :
    ¬ (readU32LE (createWavHeader 0 16000 1) 4 = 0 ∧
       readU32LE (createWavHeader 0 16000 1) 40 = 0) := by
  intro hc
  have h4 := hc.1
  rw [readU32LE_wav_4] at h4
  omega

/-- C8 amended: at session open and at all times before finalization the
header on disk is the placeholder `createWavHeader(0, 16000, 1)`; its
data-length field (bytes 40-43) is zero, while its RIFF chunk-size field
(bytes 4-7) holds 36 (that is, 36 + 0 for zero data bytes). -/
theorem placeholder_header_fields (r : ℚ)
    (fs : List ((List ℚ × List ℚ) × Bool)) :
    (replaySession r fs).header = createWavHeader 0 16000 1 ∧
    readU32LE (createWavHeader 0 16000 1) 40 = 0 ∧
    readU32LE (createWavHeader 0 16000 1) 4 = 36 ∧
    (createWavHeader 0 16000 1).length = 44 := by
  refine ⟨foldl_header r fs initSession, ?_, ?_, createWavHeader_length _ _ _⟩
  · rw [readU32LE_wav_40]
  · rw [readU32LE_wav_4]

/-- C7 counterexample: a failed write during recording does not put the
session in the Error state: the state after a failed append still has
phase `recording`. -/
theorem write_failure_no_error_transition :
    ¬ ((processFrame 16000 initSession (([1/2], [1/2]), false)).phase =
        RecPhase.error) := by
  rw [processFrame_phase]
  intro h
  exact absurd h (by decide)

/-- C7 amended: a write failure while Recording is caught by the
`try`/`catch` and only logged: the session state is completely unchanged
(the phase stays `recording`, no Error transition, no abort, and the failed
chunk's samples are not counted), so recording silently continues. -/
theorem write_failure_continues (r : ℚ) (st : RecSession)
    (inp : List ℚ × List ℚ) : processFrame r st (inp, false) = st := by
  unfold processFrame
  split
  · rfl
  · dsimp only
    rfl

/-- C10: the PCM body-byte invariant. `floatTo16BitPCM` yields exactly one
16-bit value per input sample, and throughout any session the number of
PCM body bytes appended after the header equals 2 * totalSamples: each
successful append adds 2 bytes per resampled sample and bumps
`totalSamples` by that chunk's resampled length. -/
theorem body_bytes_invariant :
    (∀ xs : List ℚ, (floatTo16BitPCM xs).length = xs.length) ∧
    (∀ (r : ℚ) (fs : List ((List ℚ × List ℚ) × Bool)),
      (replaySession r fs).bodyBytes = 2 * (replaySession r fs).totalSamples) := by
  refine ⟨floatTo16BitPCM_length, fun r fs => ?_⟩
  exact foldl_inv r fs initSession rfl

theorem toInt16_eq_self (n : ℤ) (h1 : -32768 ≤ n) (h2 : n < 32768) :
    toInt16 n = n := by
  unfold toInt16
  omega

/-- C6 counterexample: at input sample 1/2 the encoder yields
truncate(0.5 * 32767) = 16383, whereas the claimed round-to-nearest
behaviour would give 16384. -/
theorem pcm_not_round_nearest :
    floatTo16BitPCM [(1 : ℚ) / 2] ≠ [pcmRoundNearest ((1 : ℚ) / 2)] := by
  have h1 : floatTo16BitPCM [(1 : ℚ) / 2] = [16383] := by
    have hc : clampUnit ((1 : ℚ) / 2) = 1 / 2 := by
      unfold clampUnit
      rw [min_eq_right (by norm_num), max_eq_right (by norm_num)]
    simp only [floatTo16BitPCM, List.map_cons, List.map_nil, hc]
    rw [if_neg (by norm_num)]
    have ht : ratTruncToInt ((1 : ℚ) / 2 * 32768) = 16384 := by
      unfold ratTruncToInt
      rw [if_neg (by norm_num)]
      norm_num
    have ht2 : ratTruncToInt ((1 : ℚ) / 2 * 32767) = 16383 := by
      unfold ratTruncToInt
      rw [if_neg (by norm_num)]
      rw [show (1 : ℚ) / 2 * 32767 = 16383 + 1 / 2 by norm_num]
      rw [show ((16383 : ℚ) + 1 / 2) = ((16383 : ℤ) : ℚ) + 1 / 2 by norm_num]
      rw [Int.floor_int_add]
      norm_num
    rw [ht2]
    rfl
  have h2 : pcmRoundNearest ((1 : ℚ) / 2) = 16384 := by
    have hc : clampUnit ((1 : ℚ) / 2) = 1 / 2 := by
      unfold clampUnit
      rw [min_eq_right (by norm_num), max_eq_right (by norm_num)]
    unfold pcmRoundNearest
    dsimp only
    rw [hc]
    rw [if_neg (by norm_num)]
    rw [show (1 : ℚ) / 2 * 32767 + 1 / 2 = ((16384 : ℤ) : ℚ) by norm_num]
    exact Int.floor_intCast _
  rw [h1, h2]
  decide

/-- C6 amended: `floatTo16BitPCM` clamps each sample to [-1, 1]
(saturation: any sample at or above 1 encodes to 32767, any at or below -1
to -32768), scales negative values by 32768 and non-negative ones by
32767, and then truncates toward zero (discarding the fractional part)
rather than rounding to the nearest representable integer. -/
theorem pcm_encode_spec (x : ℚ) :
    (1 ≤ x → floatTo16BitPCM [x] = [32767]) ∧
    (x ≤ -1 → floatTo16BitPCM [x] = [-32768]) ∧
    (0 ≤ x → x < 1 → floatTo16BitPCM [x] = [⌊x * 32767⌋]) ∧
    (-1 < x → x < 0 → floatTo16BitPCM [x] = [-⌊-(x * 32768)⌋]) := by
  refine ⟨?_, ?_, ?_, ?_⟩
  · intro h
    have hc : clampUnit x = 1 := by
      unfold clampUnit
      rw [min_eq_left h, max_eq_right (by norm_num)]
    simp only [floatTo16BitPCM, List.map_cons, List.map_nil, hc]
    rw [if_neg (by norm_num)]
    have ht : ratTruncToInt ((1 : ℚ) * 32767) = 32767 := by
      unfold ratTruncToInt
      rw [if_neg (by norm_num)]
      rw [show (1 : ℚ) * 32767 = ((32767 : ℤ) : ℚ) by norm_num]
      exact Int.floor_intCast _
    rw [ht, toInt16_eq_self 32767 (by norm_num) (by norm_num)]
  · intro h
    have hc : clampUnit x = -1 := by
      unfold clampUnit
      rw [min_eq_right (by linarith), max_eq_left h]
    simp only [floatTo16BitPCM, List.map_cons, List.map_nil, hc]
    rw [if_pos (by norm_num)]
    have ht : ratTruncToInt ((-1 : ℚ) * 32768) = -32768 := by
      unfold ratTruncToInt
      rw [if_pos (by norm_num)]
      rw [show -((-1 : ℚ) * 32768) = ((32768 : ℤ) : ℚ) by norm_num]
      rw [Int.floor_intCast]
    rw [ht, toInt16_eq_self (-32768) (by norm_num) (by norm_num)]
  · intro h0 h1
    have hc : clampUnit x = x := by
      unfold clampUnit
      rw [min_eq_right (le_of_lt h1), max_eq_right (by linarith)]
    simp only [floatTo16BitPCM, List.map_cons, List.map_nil, hc]
    rw [if_neg (by push_neg; positivity)]
    have ht : ratTruncToInt (x * 32767) = ⌊x * 32767⌋ := by
      unfold ratTruncToInt
      rw [if_neg (by push_neg; positivity)]
    rw [ht]
    have hfl0 : 0 ≤ ⌊x * 32767⌋ := Int.floor_nonneg.mpr (by positivity)
    have hflt : ⌊x * 32767⌋ < 32768 := by
      rw [Int.floor_lt]
      push_cast
      nlinarith
    rw [toInt16_eq_self _ (by omega) hflt]
  · intro hm1 h0
    have hc : clampUnit x = x := by
      unfold clampUnit
      rw [min_eq_right (by linarith), max_eq_right (le_of_lt hm1)]
    simp only [floatTo16BitPCM, List.map_cons, List.map_nil, hc]
    rw [if_pos (by nlinarith)]
    have ht : ratTruncToInt (x * 32768) = -⌊-(x * 32768)⌋ := by
      unfold ratTruncToInt
      rw [if_pos (by nlinarith)]
    rw [ht]
    have hfl0 : 0 ≤ ⌊-(x * 32768)⌋ := Int.floor_nonneg.mpr (by nlinarith)
    have hflt : ⌊-(x * 32768)⌋ ≤ 32768 := by
      have : -(x * 32768) ≤ 32768 := by nlinarith
      calc ⌊-(x * 32768)⌋ ≤ ⌊(32768 : ℚ)⌋ := Int.floor_le_floor this
        _ = 32768 := by norm_num
    rw [toInt16_eq_self _ (by omega) (by omega)]

/-- Witness for C6's amended theorem at concrete samples 3/2, -3/2, 1/2
and -1/2. -/
theorem pcm_encode_spec_witness :
    floatTo16BitPCM [(3 : ℚ) / 2] = [32767] ∧
    floatTo16BitPCM [-(3 : ℚ) / 2] = [-32768] ∧
    floatTo16BitPCM [(1 : ℚ) / 2] = [⌊(1 : ℚ) / 2 * 32767⌋] ∧
    floatTo16BitPCM [-(1 : ℚ) / 2] = [-⌊-(-(1 : ℚ) / 2 * 32768)⌋] :=
  ⟨(pcm_encode_spec ((3 : ℚ) / 2)).1 (by norm_num),
   (pcm_encode_spec (-(3 : ℚ) / 2)).2.1 (by norm_num),
   (pcm_encode_spec ((1 : ℚ) / 2)).2.2.1 (by norm_num) (by norm_num),
   (pcm_encode_spec (-(1 : ℚ) / 2)).2.2.2 (by norm_num) (by norm_num)⟩

theorem getD_map_range {α : Type} (n i : Nat) (f : Nat → α) (d : α)
    (h : i < n) : ((List.range n).map f).getD i d = f i := by
  rw [List.getD_eq_getElem?_getD, List.getElem?_map, List.getElem?_range h]
  rfl

theorem jsRound_natCast (n : Nat) : jsRound ((n : ℚ)) = n := by
  unfold jsRound
  rw [show ((n : ℚ) + 1 / 2) = ((n : ℤ) : ℚ) + 1 / 2 by push_cast; ring]
  rw [Int.floor_int_add]
  norm_num

/-- C4: for positive rates the resampler's output length is exactly the
claimed rounded value (hence within the claimed plus-or-minus one), and
equals the input length when the rates coincide. -/
theorem resampleAudio_length_spec (buf : List ℚ) (fr tr : ℚ)
    (hf : 0 < fr) (ht : 0 < tr) :
    (fr = tr → (resampleAudio buf fr tr).length = buf.length) ∧
    |((resampleAudio buf fr tr).length : ℤ) -
      jsRound ((buf.length : ℚ) * tr / fr)| ≤ 1 := by
  constructor
  · intro he
    simp [resampleAudio, he]
  · by_cases he : fr = tr
    · subst he
      rw [show resampleAudio buf fr fr = buf from by simp [resampleAudio]]
      rw [show (buf.length : ℚ) * fr / fr = (buf.length : ℚ) from by
        field_simp]
      rw [jsRound_natCast]
      simp
    · have hlen : (resampleAudio buf fr tr).length =
          (jsRound ((buf.length : ℚ) / (fr / tr))).toNat := by
        unfold resampleAudio
        rw [if_neg he]
        simp only [List.length_map, List.length_range]
      rw [hlen]
      rw [show (buf.length : ℚ) / (fr / tr) = (buf.length : ℚ) * tr / fr from
        div_div_eq_mul_div _ _ _]
      have hnn : (0 : ℚ) ≤ (buf.length : ℚ) * tr / fr := by positivity
      have hj : 0 ≤ jsRound ((buf.length : ℚ) * tr / fr) := by
        unfold jsRound
        exact Int.floor_nonneg.mpr (by linarith)
      rw [Int.toNat_of_nonneg hj]
      simp

/-- C5: the resampler is the identity when the rates coincide; otherwise,
with ratio = fromRate/toRate, output index i reads the input at
f = floor(i * ratio) and c = min(f + 1, length - 1) — both indices shown
in range — and returns input[f] * (1 - t) + input[c] * t with
t = i * ratio - f. -/
theorem resampleAudio_spec (buf : List ℚ) (fr tr : ℚ)
    (hf : 0 < fr) (ht : 0 < tr) :
    (fr = tr → resampleAudio buf fr tr = buf) ∧
    (fr ≠ tr → ∀ i, i < (resampleAudio buf fr tr).length →
      0 ≤ ⌊(i : ℚ) * (fr / tr)⌋ ∧
      ⌊(i : ℚ) * (fr / tr)⌋ < (buf.length : ℤ) ∧
      (resampleAudio buf fr tr).getD i 0 =
        buf.getD (⌊(i : ℚ) * (fr / tr)⌋).toNat 0 *
            (1 - ((i : ℚ) * (fr / tr) - (⌊(i : ℚ) * (fr / tr)⌋ : ℚ))) +
          buf.getD ((min (⌊(i : ℚ) * (fr / tr)⌋ + 1)
              ((buf.length : ℤ) - 1)).toNat) 0 *
            ((i : ℚ) * (fr / tr) - (⌊(i : ℚ) * (fr / tr)⌋ : ℚ))) := by
  constructor
  · intro he
    simp [resampleAudio, he]
  · intro he i hi
    have hratio : 0 < fr / tr := div_pos hf ht
    have hlen : (resampleAudio buf fr tr).length =
        (jsRound ((buf.length : ℚ) / (fr / tr))).toNat := by
      unfold resampleAudio
      rw [if_neg he]
      simp only [List.length_map, List.length_range]
    rw [hlen] at hi
    have hiZ : (i : ℤ) < jsRound ((buf.length : ℚ) / (fr / tr)) := by
      omega
    have hfloorle : (jsRound ((buf.length : ℚ) / (fr / tr)) : ℚ) ≤
        (buf.length : ℚ) / (fr / tr) + 1 / 2 := Int.floor_le _
    have hiub : (i : ℚ) + 1 ≤ (buf.length : ℚ) / (fr / tr) + 1 / 2 := by
      calc ((i : ℚ) + 1) = (((i : ℤ) + 1 : ℤ) : ℚ) := by push_cast; ring
        _ ≤ (jsRound ((buf.length : ℚ) / (fr / tr)) : ℚ) := by
            exact_mod_cast hiZ
        _ ≤ (buf.length : ℚ) / (fr / tr) + 1 / 2 := hfloorle
    have hsrc_lt : (i : ℚ) * (fr / tr) < (buf.length : ℚ) := by
      have h1 : (i : ℚ) ≤ (buf.length : ℚ) / (fr / tr) - 1 / 2 := by
        linarith
      have h2 : (i : ℚ) * (fr / tr) ≤
          ((buf.length : ℚ) / (fr / tr) - 1 / 2) * (fr / tr) :=
        mul_le_mul_of_nonneg_right h1 (le_of_lt hratio)
      have h3 : ((buf.length : ℚ) / (fr / tr) - 1 / 2) * (fr / tr) =
          (buf.length : ℚ) - (fr / tr) / 2 := by
        field_simp
        ring
      nlinarith
    have hfl0 : 0 ≤ ⌊(i : ℚ) * (fr / tr)⌋ :=
      Int.floor_nonneg.mpr (by positivity)
    have hfllt : ⌊(i : ℚ) * (fr / tr)⌋ < (buf.length : ℤ) := by
      rw [Int.floor_lt]
      exact_mod_cast hsrc_lt
    refine ⟨hfl0, hfllt, ?_⟩
    have hval : (resampleAudio buf fr tr).getD i 0 =
        (fun i : Nat =>
          let srcIndex : ℚ := (i : ℚ) * (fr / tr)
          let srcIndexFloor : ℤ := ⌊srcIndex⌋
          let srcIndexCeil : ℤ :=
            min (srcIndexFloor + 1) ((buf.length : ℤ) - 1)
          let t : ℚ := srcIndex - (srcIndexFloor : ℚ)
          buf.getD srcIndexFloor.toNat 0 * (1 - t) +
            buf.getD srcIndexCeil.toNat 0 * t) i := by
      conv_lhs => rw [show resampleAudio buf fr tr =
        (List.range ((jsRound ((buf.length : ℚ) / (fr / tr))).toNat)).map
          (fun i : Nat =>
            let srcIndex : ℚ := (i : ℚ) * (fr / tr)
            let srcIndexFloor : ℤ := ⌊srcIndex⌋
            let srcIndexCeil : ℤ :=
              min (srcIndexFloor + 1) ((buf.length : ℤ) - 1)
            let t : ℚ := srcIndex - (srcIndexFloor : ℚ)
            buf.getD srcIndexFloor.toNat 0 * (1 - t) +
              buf.getD srcIndexCeil.toNat 0 * t) from by
        simp [resampleAudio, he]]
      exact getD_map_range _ i _ 0 hi
    rw [hval]

/-- Witness for C4 at buffer [1, 3], 32000 Hz to 16000 Hz. -/
theorem resampleAudio_length_spec_witness :
    (0 < (32000 : ℚ)) ∧ (0 < (16000 : ℚ)) ∧
    (((32000 : ℚ) = 16000 →
      (resampleAudio [1, 3] 32000 16000).length = ([1, 3] : List ℚ).length) ∧
    |((resampleAudio [1, 3] 32000 16000).length : ℤ) -
      jsRound ((([1, 3] : List ℚ).length : ℚ) * 16000 / 32000)| ≤ 1) :=
  ⟨by norm_num, by norm_num,
   resampleAudio_length_spec [1, 3] 32000 16000 (by norm_num) (by norm_num)⟩

/-- Witness for C5 at buffer [1, 3], 32000 Hz to 16000 Hz. -/
theorem resampleAudio_spec_witness :
    (0 < (32000 : ℚ)) ∧ (0 < (16000 : ℚ)) ∧
    (((32000 : ℚ) = 16000 → resampleAudio [1, 3] 32000 16000 = [1, 3]) ∧
    ((32000 : ℚ) ≠ 16000 → ∀ i, i < (resampleAudio [1, 3] 32000 16000).length →
      0 ≤ ⌊(i : ℚ) * ((32000 : ℚ) / 16000)⌋ ∧
      ⌊(i : ℚ) * ((32000 : ℚ) / 16000)⌋ < (([1, 3] : List ℚ).length : ℤ) ∧
      (resampleAudio [1, 3] 32000 16000).getD i 0 =
        ([1, 3] : List ℚ).getD (⌊(i : ℚ) * ((32000 : ℚ) / 16000)⌋).toNat 0 *
            (1 - ((i : ℚ) * ((32000 : ℚ) / 16000) -
              (⌊(i : ℚ) * ((32000 : ℚ) / 16000)⌋ : ℚ))) +
          ([1, 3] : List ℚ).getD ((min (⌊(i : ℚ) * ((32000 : ℚ) / 16000)⌋ + 1)
              ((([1, 3] : List ℚ).length : ℤ) - 1)).toNat) 0 *
            ((i : ℚ) * ((32000 : ℚ) / 16000) -
              (⌊(i : ℚ) * ((32000 : ℚ) / 16000)⌋ : ℚ)))) :=
  ⟨by norm_num, by norm_num,
   resampleAudio_spec [1, 3] 32000 16000 (by norm_num) (by norm_num)⟩

/-! ## Encryption codec: bytes and the AES field

The copy of crypto.ts in the repository (src/unnamed/part_002) implements
`encryptData`/`decryptData` as: PBKDF2-HMAC-SHA-256 key derivation
(10000 iterations, 48 bytes split into a 32-byte AES key and 16-byte IV)
and AES-256-CBC with PKCS#7 padding through `crypto.subtle`, inside the
OpenSSL `Salted__` envelope. The envelope handling below is the source's;
the `crypto.subtle` and PBKDF2 primitives are implemented from the
standard algorithms the source requests by name (AES-256-CBC, PKCS#7,
PBKDF2 with SHA-256). -/

/-- Bytes are `Fin 256`. -/
abbrev Byte := Fin 256

/-- Reduce a natural number to a byte. -/
def mkByte (n : Nat) : Byte := ⟨n % 256, Nat.mod_lt _ (by norm_num)⟩

/-- Bitwise XOR on bytes. -/
def bxor (a b : Byte) : Byte :=
  ⟨a.val ^^^ b.val, by
    have h := Nat.xor_lt_two_pow (show a.val < 2 ^ 8 by simpa using a.isLt)
      (show b.val < 2 ^ 8 by simpa using b.isLt)
    simpa using h⟩

theorem bxor_comm (a b : Byte) : bxor a b = bxor b a := by
  unfold bxor
  exact Fin.ext (Nat.xor_comm _ _)

theorem bxor_assoc (a b c : Byte) :
    bxor (bxor a b) c = bxor a (bxor b c) := by
  unfold bxor
  exact Fin.ext (Nat.xor_assoc _ _ _)

theorem bxor_left_comm (a b c : Byte) :
    bxor a (bxor b c) = bxor b (bxor a c) := by
  rw [← bxor_assoc, bxor_comm a b, bxor_assoc]

theorem bxor_self (a : Byte) : bxor a a = (0 : Byte) := by
  unfold bxor
  exact Fin.ext (by simpa using Nat.xor_self a.val)

theorem bxor_zero (a : Byte) : bxor a 0 = a := by
  unfold bxor
  exact Fin.ext (by simpa using Nat.xor_zero a.val)

theorem zero_bxor (a : Byte) : bxor 0 a = a := by
  rw [bxor_comm]
  exact bxor_zero a

theorem bxor_cancel (a k : Byte) : bxor (bxor a k) k = a := by
  rw [bxor_assoc, bxor_self, bxor_zero]

/-- AES forward S-box (FIPS-197 figure 7). -/
def sboxTable : List Nat := [
  99, 124, 119, 123, 242, 107, 111, 197, 48, 1, 103, 43, 254, 215, 171, 118,
  202, 130, 201, 125, 250, 89, 71, 240, 173, 212, 162, 175, 156, 164, 114, 192,
  183, 253, 147, 38, 54, 63, 247, 204, 52, 165, 229, 241, 113, 216, 49, 21,
  4, 199, 35, 195, 24, 150, 5, 154, 7, 18, 128, 226, 235, 39, 178, 117,
  9, 131, 44, 26, 27, 110, 90, 160, 82, 59, 214, 179, 41, 227, 47, 132,
  83, 209, 0, 237, 32, 252, 177, 91, 106, 203, 190, 57, 74, 76, 88, 207,
  208, 239, 170, 251, 67, 77, 51, 133, 69, 249, 2, 127, 80, 60, 159, 168,
  81, 163, 64, 143, 146, 157, 56, 245, 188, 182, 218, 33, 16, 255, 243, 210,
  205, 12, 19, 236, 95, 151, 68, 23, 196, 167, 126, 61, 100, 93, 25, 115,
  96, 129, 79, 220, 34, 42, 144, 136, 70, 238, 184, 20, 222, 94, 11, 219,
  224, 50, 58, 10, 73, 6, 36, 92, 194, 211, 172, 98, 145, 149, 228, 121,
  231, 200, 55, 109, 141, 213, 78, 169, 108, 86, 244, 234, 101, 122, 174, 8,
  186, 120, 37, 46, 28, 166, 180, 198, 232, 221, 116, 31, 75, 189, 139, 138,
  112, 62, 181, 102, 72, 3, 246, 14, 97, 53, 87, 185, 134, 193, 29, 158,
  225, 248, 152, 17, 105, 217, 142, 148, 155, 30, 135, 233, 206, 85, 40, 223,
  140, 161, 137, 13, 191, 230, 66, 104, 65, 153, 45, 15, 176, 84, 187, 22]
/-- AES inverse S-box. -/
def invSboxTable : List Nat := [
  82, 9, 106, 213, 48, 54, 165, 56, 191, 64, 163, 158, 129, 243, 215, 251,
  124, 227, 57, 130, 155, 47, 255, 135, 52, 142, 67, 68, 196, 222, 233, 203,
  84, 123, 148, 50, 166, 194, 35, 61, 238, 76, 149, 11, 66, 250, 195, 78,
  8, 46, 161, 102, 40, 217, 36, 178, 118, 91, 162, 73, 109, 139, 209, 37,
  114, 248, 246, 100, 134, 104, 152, 22, 212, 164, 92, 204, 93, 101, 182, 146,
  108, 112, 72, 80, 253, 237, 185, 218, 94, 21, 70, 87, 167, 141, 157, 132,
  144, 216, 171, 0, 140, 188, 211, 10, 247, 228, 88, 5, 184, 179, 69, 6,
  208, 44, 30, 143, 202, 63, 15, 2, 193, 175, 189, 3, 1, 19, 138, 107,
  58, 145, 17, 65, 79, 103, 220, 234, 151, 242, 207, 206, 240, 180, 230, 115,
  150, 172, 116, 34, 231, 173, 53, 133, 226, 249, 55, 232, 28, 117, 223, 110,
  71, 241, 26, 113, 29, 41, 197, 137, 111, 183, 98, 14, 170, 24, 190, 27,
  252, 86, 62, 75, 198, 210, 121, 32, 154, 219, 192, 254, 120, 205, 90, 244,
  31, 221, 168, 51, 136, 7, 199, 49, 177, 18, 16, 89, 39, 128, 236, 95,
  96, 81, 127, 169, 25, 181, 74, 13, 45, 229, 122, 159, 147, 201, 156, 239,
  160, 224, 59, 77, 174, 42, 245, 176, 200, 235, 187, 60, 131, 83, 153, 97,
  23, 43, 4, 126, 186, 119, 214, 38, 225, 105, 20, 99, 85, 33, 12, 125]
/-- S-box lookup. -/
def sbox (b : Byte) : Byte := mkByte (sboxTable.getD b.val 0)

/-- Inverse S-box lookup. -/
def invSbox (b : Byte) : Byte := mkByte (invSboxTable.getD b.val 0)

set_option maxRecDepth 100000 in
theorem invSbox_sbox : ∀ b : Byte, invSbox (sbox b) = b := by decide

/-- Multiplication by x in GF(2^8) modulo the AES polynomial (0x11B). -/
def xtime (b : Byte) : Byte :=
  if b.val < 128 then mkByte (2 * b.val) else mkByte ((2 * b.val) ^^^ 283)

/-- Boolean exhaustive check that `xtime` is GF(2)-linear. -/
def chkXtimeLinear : Bool :=
  (List.range 256).all (fun a => (List.range 256).all (fun b =>
    xtime (bxor (mkByte a) (mkByte b)) == bxor (xtime (mkByte a)) (xtime (mkByte b))))

set_option maxRecDepth 1000000 in
set_option maxHeartbeats 8000000 in
theorem chkXtimeLinear_true : chkXtimeLinear = true := by rfl

theorem mkByte_val (b : Byte) : mkByte b.val = b :=
  Fin.ext (Nat.mod_eq_of_lt b.isLt)

theorem xtime_bxor (a b : Byte) :
    xtime (bxor a b) = bxor (xtime a) (xtime b) := by
  have h := chkXtimeLinear_true
  unfold chkXtimeLinear at h
  rw [List.all_eq_true] at h
  have h1 := h a.val (List.mem_range.mpr a.isLt)
  rw [List.all_eq_true] at h1
  have h2 := h1 b.val (List.mem_range.mpr b.isLt)
  rw [mkByte_val, mkByte_val] at h2
  exact eq_of_beq h2

/-- Multiplication by 3 in the AES field. -/
def gm3 (b : Byte) : Byte := bxor (xtime b) b

/-- Multiplication by 9. -/
def gm9 (b : Byte) : Byte := bxor (xtime (xtime (xtime b))) b

/-- Multiplication by 11. -/
def gm11 (b : Byte) : Byte := bxor (bxor (xtime (xtime (xtime b))) (xtime b)) b

/-- Multiplication by 13. -/
def gm13 (b : Byte) : Byte := bxor (bxor (xtime (xtime (xtime b))) (xtime (xtime b))) b

/-- Multiplication by 14. -/
def gm14 (b : Byte) : Byte :=
  bxor (bxor (xtime (xtime (xtime b))) (xtime (xtime b))) (xtime b)

theorem gm3_bxor (a b : Byte) : gm3 (bxor a b) = bxor (gm3 a) (gm3 b) := by
  simp only [gm3, xtime_bxor]
  simp [bxor_assoc, bxor_comm, bxor_left_comm]

theorem gm9_bxor (a b : Byte) : gm9 (bxor a b) = bxor (gm9 a) (gm9 b) := by
  simp only [gm9, xtime_bxor]
  simp [bxor_assoc, bxor_comm, bxor_left_comm]

theorem gm11_bxor (a b : Byte) : gm11 (bxor a b) = bxor (gm11 a) (gm11 b) := by
  simp only [gm11, xtime_bxor]
  simp [bxor_assoc, bxor_comm, bxor_left_comm]

theorem gm13_bxor (a b : Byte) : gm13 (bxor a b) = bxor (gm13 a) (gm13 b) := by
  simp only [gm13, xtime_bxor]
  simp [bxor_assoc, bxor_comm, bxor_left_comm]

theorem gm14_bxor (a b : Byte) : gm14 (bxor a b) = bxor (gm14 a) (gm14 b) := by
  simp only [gm14, xtime_bxor]
  simp [bxor_assoc, bxor_comm, bxor_left_comm]

set_option maxRecDepth 100000 in
theorem gcol1 : ∀ x : Byte,
    bxor (bxor (bxor (gm14 (xtime x)) (gm11 x)) (gm13 x)) (gm9 (gm3 x)) = x := by
  decide

set_option maxRecDepth 100000 in
theorem gcol2 : ∀ x : Byte,
    bxor (bxor (bxor (gm14 (gm3 x)) (gm11 (xtime x))) (gm13 x)) (gm9 x) = 0 := by
  decide

set_option maxRecDepth 100000 in
theorem gcol3 : ∀ x : Byte,
    bxor (bxor (bxor (gm14 x) (gm11 (gm3 x))) (gm13 (xtime x))) (gm9 x) = 0 := by
  decide

set_option maxRecDepth 100000 in
theorem gcol4 : ∀ x : Byte,
    bxor (bxor (bxor (gm14 x) (gm11 x)) (gm13 (gm3 x))) (gm9 (xtime x)) = 0 := by
  decide

/-! ## AES-256 block cipher (FIPS-197), column-major 16-byte state -/

/-- AES state / block: 16 bytes `s0 … s15`, column-major as in FIPS-197
(column c is `s(4c) … s(4c+3)`). -/
structure B16 where
  s0 : Byte
  s1 : Byte
  s2 : Byte
  s3 : Byte
  s4 : Byte
  s5 : Byte
  s6 : Byte
  s7 : Byte
  s8 : Byte
  s9 : Byte
  s10 : Byte
  s11 : Byte
  s12 : Byte
  s13 : Byte
  s14 : Byte
  s15 : Byte
deriving DecidableEq

/-- All-zero block. -/
def zeroB : B16 := ⟨0, 0, 0, 0, 0, 0, 0, 0, 0, 0, 0, 0, 0, 0, 0, 0⟩

/-- Bytewise XOR of two blocks (AddRoundKey, and the CBC chaining XOR). -/
def arkB (s k : B16) : B16 :=
  ⟨bxor s.s0 k.s0, bxor s.s1 k.s1, bxor s.s2 k.s2, bxor s.s3 k.s3,
   bxor s.s4 k.s4, bxor s.s5 k.s5, bxor s.s6 k.s6, bxor s.s7 k.s7,
   bxor s.s8 k.s8, bxor s.s9 k.s9, bxor s.s10 k.s10, bxor s.s11 k.s11,
   bxor s.s12 k.s12, bxor s.s13 k.s13, bxor s.s14 k.s14, bxor s.s15 k.s15⟩

/-- SubBytes. -/
def subB (s : B16) : B16 :=
  ⟨sbox s.s0, sbox s.s1, sbox s.s2, sbox s.s3,
   sbox s.s4, sbox s.s5, sbox s.s6, sbox s.s7,
   sbox s.s8, sbox s.s9, sbox s.s10, sbox s.s11,
   sbox s.s12, sbox s.s13, sbox s.s14, sbox s.s15⟩

/-- InvSubBytes. -/
def invSubB (s : B16) : B16 :=
  ⟨invSbox s.s0, invSbox s.s1, invSbox s.s2, invSbox s.s3,
   invSbox s.s4, invSbox s.s5, invSbox s.s6, invSbox s.s7,
   invSbox s.s8, invSbox s.s9, invSbox s.s10, invSbox s.s11,
   invSbox s.s12, invSbox s.s13, invSbox s.s14, invSbox s.s15⟩

/-- ShiftRows (row r rotates left by r; column-major indexing). -/
def shiftRowsB (s : B16) : B16 :=
  ⟨s.s0, s.s5, s.s10, s.s15,
   s.s4, s.s9, s.s14, s.s3,
   s.s8, s.s13, s.s2, s.s7,
   s.s12, s.s1, s.s6, s.s11⟩

/-- InvShiftRows. -/
def invShiftRowsB (s : B16) : B16 :=
  ⟨s.s0, s.s13, s.s10, s.s7,
   s.s4, s.s1, s.s14, s.s11,
   s.s8, s.s5, s.s2, s.s15,
   s.s12, s.s9, s.s6, s.s3⟩

/-- MixColumns on one column. -/
def mixCol (a b c d : Byte) : Byte × Byte × Byte × Byte :=
  (bxor (bxor (bxor (xtime a) (gm3 b)) c) d,
   bxor (bxor (bxor a (xtime b)) (gm3 c)) d,
   bxor (bxor (bxor a b) (xtime c)) (gm3 d),
   bxor (bxor (bxor (gm3 a) b) c) (xtime d))

/-- InvMixColumns on one column. -/
def invMixCol (a b c d : Byte) : Byte × Byte × Byte × Byte :=
  (bxor (bxor (bxor (gm14 a) (gm11 b)) (gm13 c)) (gm9 d),
   bxor (bxor (bxor (gm9 a) (gm14 b)) (gm11 c)) (gm13 d),
   bxor (bxor (bxor (gm13 a) (gm9 b)) (gm14 c)) (gm11 d),
   bxor (bxor (bxor (gm11 a) (gm13 b)) (gm9 c)) (gm14 d))

/-- MixColumns. -/
def mixColumnsB (s : B16) : B16 :=
  let c0 := mixCol s.s0 s.s1 s.s2 s.s3
  let c1 := mixCol s.s4 s.s5 s.s6 s.s7
  let c2 := mixCol s.s8 s.s9 s.s10 s.s11
  let c3 := mixCol s.s12 s.s13 s.s14 s.s15
  ⟨c0.1, c0.2.1, c0.2.2.1, c0.2.2.2,
   c1.1, c1.2.1, c1.2.2.1, c1.2.2.2,
   c2.1, c2.2.1, c2.2.2.1, c2.2.2.2,
   c3.1, c3.2.1, c3.2.2.1, c3.2.2.2⟩

/-- InvMixColumns. -/
def invMixColumnsB (s : B16) : B16 :=
  let c0 := invMixCol s.s0 s.s1 s.s2 s.s3
  let c1 := invMixCol s.s4 s.s5 s.s6 s.s7
  let c2 := invMixCol s.s8 s.s9 s.s10 s.s11
  let c3 := invMixCol s.s12 s.s13 s.s14 s.s15
  ⟨c0.1, c0.2.1, c0.2.2.1, c0.2.2.2,
   c1.1, c1.2.1, c1.2.2.1, c1.2.2.2,
   c2.1, c2.2.1, c2.2.2.1, c2.2.2.2,
   c3.1, c3.2.1, c3.2.2.1, c3.2.2.2⟩

theorem arkB_cancel (s k : B16) : arkB (arkB s k) k = s := by
  cases s
  cases k
  simp [arkB, bxor_cancel]

theorem invSubB_subB (s : B16) : invSubB (subB s) = s := by
  cases s
  simp [subB, invSubB, invSbox_sbox]

theorem invShiftRowsB_shiftRowsB (s : B16) :
    invShiftRowsB (shiftRowsB s) = s := rfl

theorem invMixCol_comp0 (a b c d : Byte) :
    bxor (bxor (bxor (gm14 (bxor (bxor (bxor (xtime a) (gm3 b)) c) d)) (gm11 (bxor (bxor (bxor a (xtime b)) (gm3 c)) d))) (gm13 (bxor (bxor (bxor a b) (xtime c)) (gm3 d)))) (gm9 (bxor (bxor (bxor (gm3 a) b) c) (xtime d))) = a := by
  have h1 := gcol1 a
  have h2 := gcol2 b
  have h3 := gcol3 c
  have h4 := gcol4 d
  calc bxor (bxor (bxor (gm14 (bxor (bxor (bxor (xtime a) (gm3 b)) c) d)) (gm11 (bxor (bxor (bxor a (xtime b)) (gm3 c)) d))) (gm13 (bxor (bxor (bxor a b) (xtime c)) (gm3 d)))) (gm9 (bxor (bxor (bxor (gm3 a) b) c) (xtime d)))
      = bxor (bxor (bxor (bxor (bxor (bxor (gm14 (xtime a)) (gm11 a)) (gm13 a)) (gm9 (gm3 a))) (bxor (bxor (bxor (gm14 (gm3 b)) (gm11 (xtime b))) (gm13 b)) (gm9 b))) (bxor (bxor (bxor (gm14 c) (gm11 (gm3 c))) (gm13 (xtime c))) (gm9 c))) (bxor (bxor (bxor (gm14 d) (gm11 d)) (gm13 (gm3 d))) (gm9 (xtime d))) := by
        simp only [gm14_bxor, gm11_bxor, gm13_bxor, gm9_bxor]
        simp [bxor_assoc, bxor_comm, bxor_left_comm]
    _ = bxor (bxor (bxor a 0) 0) 0 := by rw [h1, h2, h3, h4]
    _ = a := by simp [bxor_zero, zero_bxor]

theorem invMixCol_comp1 (a b c d : Byte) :
    bxor (bxor (bxor (gm9 (bxor (bxor (bxor (xtime a) (gm3 b)) c) d)) (gm14 (bxor (bxor (bxor a (xtime b)) (gm3 c)) d))) (gm11 (bxor (bxor (bxor a b) (xtime c)) (gm3 d)))) (gm13 (bxor (bxor (bxor (gm3 a) b) c) (xtime d))) = b := by
  have h1 := gcol1 b
  have h2 := gcol2 c
  have h3 := gcol3 d
  have h4 := gcol4 a
  calc bxor (bxor (bxor (gm9 (bxor (bxor (bxor (xtime a) (gm3 b)) c) d)) (gm14 (bxor (bxor (bxor a (xtime b)) (gm3 c)) d))) (gm11 (bxor (bxor (bxor a b) (xtime c)) (gm3 d)))) (gm13 (bxor (bxor (bxor (gm3 a) b) c) (xtime d)))
      = bxor (bxor (bxor (bxor (bxor (bxor (gm14 a) (gm11 a)) (gm13 (gm3 a))) (gm9 (xtime a))) (bxor (bxor (bxor (gm14 (xtime b)) (gm11 b)) (gm13 b)) (gm9 (gm3 b)))) (bxor (bxor (bxor (gm14 (gm3 c)) (gm11 (xtime c))) (gm13 c)) (gm9 c))) (bxor (bxor (bxor (gm14 d) (gm11 (gm3 d))) (gm13 (xtime d))) (gm9 d)) := by
        simp only [gm14_bxor, gm11_bxor, gm13_bxor, gm9_bxor]
        simp [bxor_assoc, bxor_comm, bxor_left_comm]
    _ = bxor (bxor (bxor 0 b) 0) 0 := by rw [h1, h2, h3, h4]
    _ = b := by simp [bxor_zero, zero_bxor]

theorem invMixCol_comp2 (a b c d : Byte) :
    bxor (bxor (bxor (gm13 (bxor (bxor (bxor (xtime a) (gm3 b)) c) d)) (gm9 (bxor (bxor (bxor a (xtime b)) (gm3 c)) d))) (gm14 (bxor (bxor (bxor a b) (xtime c)) (gm3 d)))) (gm11 (bxor (bxor (bxor (gm3 a) b) c) (xtime d))) = c := by
  have h1 := gcol1 c
  have h2 := gcol2 d
  have h3 := gcol3 a
  have h4 := gcol4 b
  calc bxor (bxor (bxor (gm13 (bxor (bxor (bxor (xtime a) (gm3 b)) c) d)) (gm9 (bxor (bxor (bxor a (xtime b)) (gm3 c)) d))) (gm14 (bxor (bxor (bxor a b) (xtime c)) (gm3 d)))) (gm11 (bxor (bxor (bxor (gm3 a) b) c) (xtime d)))
      = bxor (bxor (bxor (bxor (bxor (bxor (gm14 a) (gm11 (gm3 a))) (gm13 (xtime a))) (gm9 a)) (bxor (bxor (bxor (gm14 b) (gm11 b)) (gm13 (gm3 b))) (gm9 (xtime b)))) (bxor (bxor (bxor (gm14 (xtime c)) (gm11 c)) (gm13 c)) (gm9 (gm3 c)))) (bxor (bxor (bxor (gm14 (gm3 d)) (gm11 (xtime d))) (gm13 d)) (gm9 d)) := by
        simp only [gm14_bxor, gm11_bxor, gm13_bxor, gm9_bxor]
        simp [bxor_assoc, bxor_comm, bxor_left_comm]
    _ = bxor (bxor (bxor 0 0) c) 0 := by rw [h1, h2, h3, h4]
    _ = c := by simp [bxor_zero, zero_bxor]

theorem invMixCol_comp3 (a b c d : Byte) :
    bxor (bxor (bxor (gm11 (bxor (bxor (bxor (xtime a) (gm3 b)) c) d)) (gm13 (bxor (bxor (bxor a (xtime b)) (gm3 c)) d))) (gm9 (bxor (bxor (bxor a b) (xtime c)) (gm3 d)))) (gm14 (bxor (bxor (bxor (gm3 a) b) c) (xtime d))) = d := by
  have h1 := gcol1 d
  have h2 := gcol2 a
  have h3 := gcol3 b
  have h4 := gcol4 c
  calc bxor (bxor (bxor (gm11 (bxor (bxor (bxor (xtime a) (gm3 b)) c) d)) (gm13 (bxor (bxor (bxor a (xtime b)) (gm3 c)) d))) (gm9 (bxor (bxor (bxor a b) (xtime c)) (gm3 d)))) (gm14 (bxor (bxor (bxor (gm3 a) b) c) (xtime d)))
      = bxor (bxor (bxor (bxor (bxor (bxor (gm14 (gm3 a)) (gm11 (xtime a))) (gm13 a)) (gm9 a)) (bxor (bxor (bxor (gm14 b) (gm11 (gm3 b))) (gm13 (xtime b))) (gm9 b))) (bxor (bxor (bxor (gm14 c) (gm11 c)) (gm13 (gm3 c))) (gm9 (xtime c)))) (bxor (bxor (bxor (gm14 (xtime d)) (gm11 d)) (gm13 d)) (gm9 (gm3 d))) := by
        simp only [gm14_bxor, gm11_bxor, gm13_bxor, gm9_bxor]
        simp [bxor_assoc, bxor_comm, bxor_left_comm]
    _ = bxor (bxor (bxor 0 0) 0) d := by rw [h1, h2, h3, h4]
    _ = d := by simp [bxor_zero, zero_bxor]

theorem invMixColumnsB_mixColumnsB (s : B16) :
    invMixColumnsB (mixColumnsB s) = s := by
  cases s with
  | mk s0 s1 s2 s3 s4 s5 s6 s7 s8 s9 s10 s11 s12 s13 s14 s15 =>
    simp only [mixColumnsB, invMixColumnsB, B16.mk.injEq]
    refine ⟨invMixCol_comp0 s0 s1 s2 s3, invMixCol_comp1 s0 s1 s2 s3,
      invMixCol_comp2 s0 s1 s2 s3, invMixCol_comp3 s0 s1 s2 s3,
      invMixCol_comp0 s4 s5 s6 s7, invMixCol_comp1 s4 s5 s6 s7,
      invMixCol_comp2 s4 s5 s6 s7, invMixCol_comp3 s4 s5 s6 s7,
      invMixCol_comp0 s8 s9 s10 s11, invMixCol_comp1 s8 s9 s10 s11,
      invMixCol_comp2 s8 s9 s10 s11, invMixCol_comp3 s8 s9 s10 s11,
      invMixCol_comp0 s12 s13 s14 s15, invMixCol_comp1 s12 s13 s14 s15,
      invMixCol_comp2 s12 s13 s14 s15, invMixCol_comp3 s12 s13 s14 s15⟩

/-! ## AES-256 key schedule, block cipher, CBC, PKCS#7 -/

/-- Key-schedule word: four bytes. -/
abbrev KWord := Byte × Byte × Byte × Byte

/-- SubWord of the key schedule. -/
def subWord (w : KWord) : KWord := (sbox w.1, sbox w.2.1, sbox w.2.2.1, sbox w.2.2.2)

/-- RotWord of the key schedule. -/
def rotWord (w : KWord) : KWord := (w.2.1, w.2.2.1, w.2.2.2, w.1)

/-- XOR of two key-schedule words. -/
def xorWord (a b : KWord) : KWord :=
  (bxor a.1 b.1, bxor a.2.1 b.2.1, bxor a.2.2.1 b.2.2.1, bxor a.2.2.2 b.2.2.2)

/-- Round-constant first bytes for AES-256 (rounds 1..7 of the schedule). -/
def rconTable : List Nat := [1, 2, 4, 8, 16, 32, 64]

/-- AES-256 key expansion (FIPS-197 section 5.2): 60 words from the
32-byte key; Nk = 8. -/
def keyWords (key : List Byte) : List KWord :=
  let kb : Nat → Byte := fun j => key.getD j 0
  let w0 : List KWord := (List.range 8).map (fun j =>
    (kb (4 * j), kb (4 * j + 1), kb (4 * j + 2), kb (4 * j + 3)))
  (List.range 52).foldl (fun ws k =>
    let i := k + 8
    let temp := ws.getD (i - 1) (0, 0, 0, 0)
    let temp2 :=
      if i % 8 == 0 then
        xorWord (subWord (rotWord temp)) (mkByte (rconTable.getD (i / 8 - 1) 0), 0, 0, 0)
      else if i % 8 == 4 then subWord temp
      else temp
    ws ++ [xorWord (ws.getD (i - 8) (0, 0, 0, 0)) temp2]) w0

/-- Round key r: words 4r .. 4r+3, column-major. -/
def roundKeyAt (ws : List KWord) (r : Nat) : B16 :=
  let w : Nat → KWord := fun c => ws.getD (4 * r + c) (0, 0, 0, 0)
  ⟨(w 0).1, (w 0).2.1, (w 0).2.2.1, (w 0).2.2.2,
   (w 1).1, (w 1).2.1, (w 1).2.2.1, (w 1).2.2.2,
   (w 2).1, (w 2).2.1, (w 2).2.2.1, (w 2).2.2.2,
   (w 3).1, (w 3).2.1, (w 3).2.2.1, (w 3).2.2.2⟩

/-- The 15 round keys of AES-256, split as (first, middle 13, last). -/
def aesKeySchedule (key : List Byte) : B16 × List B16 × B16 :=
  let ws := keyWords key
  (roundKeyAt ws 0, (List.range 13).map (fun r => roundKeyAt ws (r + 1)),
    roundKeyAt ws 14)

/-- One middle encryption round. -/
def encStep (s k : B16) : B16 := arkB (mixColumnsB (shiftRowsB (subB s))) k

/-- Inverse of one middle round. -/
def decStep (k c : B16) : B16 :=
  invSubB (invShiftRowsB (invMixColumnsB (arkB c k)))

/-- AES block encryption (FIPS-197 Cipher): initial AddRoundKey, 13 middle
rounds, final round without MixColumns. -/
def aesEncryptBlock (k0 : B16) (mid : List B16) (kf : B16) (b : B16) : B16 :=
  arkB (shiftRowsB (subB (mid.foldl encStep (arkB b k0)))) kf

/-- AES block decryption (FIPS-197 InvCipher, with each inverse round
grouped as `decStep`; the flattened operation sequence is identical). -/
def aesDecryptBlock (k0 : B16) (mid : List B16) (kf : B16) (c : B16) : B16 :=
  arkB (mid.foldr decStep (invSubB (invShiftRowsB (arkB c kf)))) k0

/-- CBC encryption over a block list, chaining from `prev` (the IV). -/
def cbcEnc (k0 : B16) (mid : List B16) (kf : B16) : B16 → List B16 → List B16
  | _, [] => []
  | prev, b :: bs =>
    let c := aesEncryptBlock k0 mid kf (arkB b prev)
    c :: cbcEnc k0 mid kf c bs

/-- CBC decryption. -/
def cbcDec (k0 : B16) (mid : List B16) (kf : B16) : B16 → List B16 → List B16
  | _, [] => []
  | prev, c :: cs =>
    arkB (aesDecryptBlock k0 mid kf c) prev :: cbcDec k0 mid kf c cs

/-- Serialize one block to its 16 bytes. -/
def listOfBlock (b : B16) : List Byte :=
  [b.s0, b.s1, b.s2, b.s3, b.s4, b.s5, b.s6, b.s7,
   b.s8, b.s9, b.s10, b.s11, b.s12, b.s13, b.s14, b.s15]

/-- Concatenate blocks to a byte list. -/
def fromBlocks (bs : List B16) : List Byte :=
  bs.foldr (fun b acc => listOfBlock b ++ acc) []

/-- Split a byte list into 16-byte blocks (any incomplete trailing chunk
is dropped; the uses below only ever pass multiples of 16). -/
def toBlocks : List Byte → List B16
  | b0 :: b1 :: b2 :: b3 :: b4 :: b5 :: b6 :: b7 ::
    b8 :: b9 :: b10 :: b11 :: b12 :: b13 :: b14 :: b15 :: rest =>
    ⟨b0, b1, b2, b3, b4, b5, b6, b7, b8, b9, b10, b11, b12, b13, b14, b15⟩ ::
      toBlocks rest
  | _ => []

/-- Build a block from the first 16 entries of a byte list (used for the
IV). -/
def blockOfList (l : List Byte) : B16 :=
  ⟨l.getD 0 0, l.getD 1 0, l.getD 2 0, l.getD 3 0,
   l.getD 4 0, l.getD 5 0, l.getD 6 0, l.getD 7 0,
   l.getD 8 0, l.getD 9 0, l.getD 10 0, l.getD 11 0,
   l.getD 12 0, l.getD 13 0, l.getD 14 0, l.getD 15 0⟩

/-- PKCS#7 padding to a 16-byte multiple: always appends k = 16 - n mod 16
bytes of value k (a whole block when n is already a multiple). -/
def pkcs7pad (l : List Byte) : List Byte :=
  let k := 16 - l.length % 16
  l ++ List.replicate k (mkByte k)

/-- Strict PKCS#7 unpadding as validated by WebCrypto AES-CBC decrypt:
the last byte k must be 1..16, the last k bytes must all equal k. -/
def pkcs7unpad (l : List Byte) : Option (List Byte) :=
  let n := l.length
  let p := (l.getLastD 0).val
  if p = 0 ∨ 16 < p ∨ n < p then none
  else if (l.drop (n - p)).all (fun x => x.val == p) then some (l.take (n - p))
  else none

/-! ## SHA-256, HMAC, PBKDF2 (the platform primitives the source invokes
by name through `crypto.subtle.deriveBits`); bytes here are plain `Nat`
values (0..255) since no theorems inspect them: the round-trip argument
only uses that derivation is deterministic. -/

def shaK : List Nat := [
  1116352408, 1899447441, 3049323471, 3921009573,
  961987163, 1508970993, 2453635748, 2870763221,
  3624381080, 310598401, 607225278, 1426881987,
  1925078388, 2162078206, 2614888103, 3248222580,
  3835390401, 4022224774, 264347078, 604807628,
  770255983, 1249150122, 1555081692, 1996064986,
  2554220882, 2821834349, 2952996808, 3210313671,
  3336571891, 3584528711, 113926993, 338241895,
  666307205, 773529912, 1294757372, 1396182291,
  1695183700, 1986661051, 2177026350, 2456956037,
  2730485921, 2820302411, 3259730800, 3345764771,
  3516065817, 3600352804, 4094571909, 275423344,
  430227734, 506948616, 659060556, 883997877,
  958139571, 1322822218, 1537002063, 1747873779,
  1955562222, 2024104815, 2227730452, 2361852424,
  2428436474, 2756734187, 3204031479, 3329325298]

def shaH0 : List Nat := [
  1779033703, 3144134277, 1013904242, 2773480762,
  1359893119, 2600822924, 528734635, 1541459225]

/-- Rotate a 32-bit word right. -/
def rotr32 (n x : Nat) : Nat := ((x >>> n) ||| (x <<< (32 - n))) % 4294967296

/-- Big-endian 64-bit length field. -/
def be64 (n : Nat) : List Nat :=
  [n / 72057594037927936 % 256, n / 281474976710656 % 256,
   n / 1099511627776 % 256, n / 4294967296 % 256,
   n / 16777216 % 256, n / 65536 % 256, n / 256 % 256, n % 256]

/-- SHA-256 message padding. -/
def shaPadMsg (msg : List Nat) : List Nat :=
  msg ++ [128] ++ List.replicate ((119 - msg.length % 64) % 64) 0 ++
    be64 (8 * msg.length)

/-- One 64-byte chunk to sixteen 32-bit big-endian words. -/
def chunkWords (chunk : List Nat) : List Nat :=
  (List.range 16).map (fun i =>
    chunk.getD (4 * i) 0 * 16777216 + chunk.getD (4 * i + 1) 0 * 65536 +
      chunk.getD (4 * i + 2) 0 * 256 + chunk.getD (4 * i + 3) 0)

/-- Message-schedule extension to 64 words. -/
def shaSchedule (ws : List Nat) : List Nat :=
  (List.range 48).foldl (fun w i =>
    let w15 := w.getD (i + 1) 0
    let w2 := w.getD (i + 14) 0
    let s0 := (rotr32 7 w15) ^^^ (rotr32 18 w15) ^^^ (w15 >>> 3)
    let s1 := (rotr32 17 w2) ^^^ (rotr32 19 w2) ^^^ (w2 >>> 10)
    w ++ [(w.getD i 0 + s0 + w.getD (i + 9) 0 + s1) % 4294967296]) ws

/-- SHA-256 compression of one chunk into the running hash state. -/
def shaCompress (h : List Nat) (chunk : List Nat) : List Nat :=
  let w := shaSchedule (chunkWords chunk)
  let f := (List.range 64).foldl (fun st i =>
    let a := st.getD 0 0
    let b := st.getD 1 0
    let c := st.getD 2 0
    let d := st.getD 3 0
    let e := st.getD 4 0
    let ff := st.getD 5 0
    let g := st.getD 6 0
    let hh := st.getD 7 0
    let s1 := (rotr32 6 e) ^^^ (rotr32 11 e) ^^^ (rotr32 25 e)
    let ch := (e &&& ff) ^^^ ((4294967295 - e) &&& g)
    let temp1 := (hh + s1 + ch + shaK.getD i 0 + w.getD i 0) % 4294967296
    let s0 := (rotr32 2 a) ^^^ (rotr32 13 a) ^^^ (rotr32 22 a)
    let maj := (a &&& b) ^^^ (a &&& c) ^^^ (b &&& c)
    let temp2 := (s0 + maj) % 4294967296
    [(temp1 + temp2) % 4294967296, a, b, c, (d + temp1) % 4294967296, e, ff, g]) h
  (List.range 8).map (fun i => (h.getD i 0 + f.getD i 0) % 4294967296)

/-- SHA-256 of a byte list, as 32 bytes. -/
def sha256 (msg : List Nat) : List Nat :=
  let padded := shaPadMsg msg
  let hs := (List.range (padded.length / 64)).foldl (fun h i =>
    shaCompress h ((padded.drop (64 * i)).take 64)) shaH0
  hs.foldr (fun wd acc =>
    (wd / 16777216 % 256) :: (wd / 65536 % 256) :: (wd / 256 % 256) ::
      (wd % 256) :: acc) []

/-- HMAC-SHA-256 (RFC 2104). -/
def hmacSha256 (key msg : List Nat) : List Nat :=
  let k0 := if 64 < key.length then sha256 key else key
  let k := k0 ++ List.replicate (64 - k0.length) 0
  sha256 ((k.map (fun b => b ^^^ 92)) ++
    sha256 ((k.map (fun b => b ^^^ 54)) ++ msg))

/-- One PBKDF2 block T_i: the XOR of `iters` chained HMAC values. -/
def pbkdf2BlockT (pw salt : List Nat) (iters blockIndex : Nat) : List Nat :=
  let u1 := hmacSha256 pw (salt ++
    [blockIndex / 16777216 % 256, blockIndex / 65536 % 256,
     blockIndex / 256 % 256, blockIndex % 256])
  ((List.range (iters - 1)).foldl (fun acc _ =>
    let u2 := hmacSha256 pw acc.2
    (List.zipWith (fun a b => a ^^^ b) acc.1 u2, u2)) (u1, u1)).1

/-- PBKDF2-HMAC-SHA-256 (RFC 8018). -/
def pbkdf2HmacSha256 (pw salt : List Nat) (iters dkLen : Nat) : List Nat :=
  (((List.range ((dkLen + 31) / 32)).map (fun i =>
    pbkdf2BlockT pw salt iters (i + 1))).join).take dkLen

/-! ## The encryption codec (crypto.ts) -/

/-- Model of `deriveKeyAndIV`: 48 bytes via PBKDF2 (SHA-256, 10000
iterations), split 32 key + 16 IV. -/
def deriveKeyAndIV (password salt : List Byte) : List Byte × List Byte :=
  let derived := (pbkdf2HmacSha256 (password.map Fin.val) (salt.map Fin.val)
    10000 48).map mkByte
  (derived.take 32, derived.drop 32)

/-- ASCII bytes of the OpenSSL marker string. -/
def saltedMarker : List Byte := [83, 97, 108, 116, 101, 100, 95, 95].map mkByte

/-- Model of `crypto.getRandomValues(new Uint8Array(8))`: an 8-byte value
drawn from the caller-supplied entropy (padded with zeros if short). -/
def randomSalt8 (entropy : List Byte) : List Byte :=
  (entropy ++ List.replicate 8 0).take 8

/-- Model of `encryptData(data, password)`: fresh 8-byte salt, PBKDF2 key
and IV, AES-256-CBC with PKCS#7 over the data, output
"Salted__" ++ salt ++ ciphertext. The nondeterministic salt draw is made
explicit through the `entropy` argument. -/
def encryptData (data password entropy : List Byte) : List Byte :=
  let salt := randomSalt8 entropy
  let kv := deriveKeyAndIV password salt
  let ks := aesKeySchedule kv.1
  let ct := fromBlocks (cbcEnc ks.1 ks.2.1 ks.2.2 (blockOfList kv.2)
    (toBlocks (pkcs7pad data)))
  saltedMarker ++ salt ++ ct

/-- Model of `decryptData(envelope, password)`: checks the "Salted__"
marker (error on mismatch), re-derives key and IV from the embedded salt,
then AES-256-CBC decrypts; WebCrypto's OperationError on a ciphertext
that is not a positive multiple of 16 bytes, or on invalid PKCS#7
padding, is an error value. -/
def decryptData (envelope password : List Byte) : Except String (List Byte) :=
  if envelope.take 8 ≠ saltedMarker then
    Except.error "Invalid encrypted data format"
  else
    let salt := (envelope.drop 8).take 8
    let encrypted := envelope.drop 16
    let kv := deriveKeyAndIV password salt
    let ks := aesKeySchedule kv.1
    if encrypted.length = 0 ∨ encrypted.length % 16 ≠ 0 then
      Except.error "OperationError"
    else
      match pkcs7unpad (fromBlocks (cbcDec ks.1 ks.2.1 ks.2.2
        (blockOfList kv.2) (toBlocks encrypted))) with
      | some pt => Except.ok pt
      | none => Except.error "OperationError"

/-! ## Inversion lemmas for the cipher and the codec -/

theorem decStep_encStep (k s : B16) : decStep k (encStep s k) = s := by
  unfold decStep encStep
  rw [arkB_cancel, invMixColumnsB_mixColumnsB, invShiftRowsB_shiftRowsB,
    invSubB_subB]

theorem foldr_dec_foldl_enc (ks : List B16) :
    ∀ s : B16, ks.foldr decStep (ks.foldl encStep s) = s := by
  induction ks with
  | nil => intro s; rfl
  | cons k ks ih =>
    intro s
    rw [List.foldl_cons, List.foldr_cons, ih, decStep_encStep]

theorem aesDecryptBlock_encryptBlock (k0 : B16) (mid : List B16) (kf : B16)
    (b : B16) :
    aesDecryptBlock k0 mid kf (aesEncryptBlock k0 mid kf b) = b := by
  unfold aesEncryptBlock aesDecryptBlock
  rw [arkB_cancel, invShiftRowsB_shiftRowsB, invSubB_subB,
    foldr_dec_foldl_enc, arkB_cancel]

theorem cbcDec_cbcEnc (k0 : B16) (mid : List B16) (kf : B16) (bs : List B16) :
    ∀ prev : B16, cbcDec k0 mid kf prev (cbcEnc k0 mid kf prev bs) = bs := by
  induction bs with
  | nil => intro prev; rfl
  | cons b bs ih =>
    intro prev
    show arkB (aesDecryptBlock k0 mid kf
        (aesEncryptBlock k0 mid kf (arkB b prev))) prev ::
      cbcDec k0 mid kf (aesEncryptBlock k0 mid kf (arkB b prev))
        (cbcEnc k0 mid kf (aesEncryptBlock k0 mid kf (arkB b prev)) bs) =
      b :: bs
    rw [aesDecryptBlock_encryptBlock, arkB_cancel, ih]

theorem toBlocks_fromBlocks (bs : List B16) : toBlocks (fromBlocks bs) = bs := by
  induction bs with
  | nil => rfl
  | cons b bs ih =>
    cases b with
    | mk s0 s1 s2 s3 s4 s5 s6 s7 s8 s9 s10 s11 s12 s13 s14 s15 =>
      show B16.mk s0 s1 s2 s3 s4 s5 s6 s7 s8 s9 s10 s11 s12 s13 s14 s15 ::
        toBlocks (fromBlocks bs) = _
      rw [ih]

theorem fromBlocks_length (bs : List B16) :
    (fromBlocks bs).length = 16 * bs.length := by
  induction bs with
  | nil => rfl
  | cons b bs ih =>
    show (listOfBlock b ++ fromBlocks bs).length = _
    rw [List.length_append, ih]
    show 16 + 16 * bs.length = 16 * (b :: bs).length
    rw [List.length_cons]
    ring

theorem cbcEnc_length (k0 : B16) (mid : List B16) (kf : B16) (bs : List B16) :
    ∀ prev : B16, (cbcEnc k0 mid kf prev bs).length = bs.length := by
  induction bs with
  | nil => intro prev; rfl
  | cons b bs ih =>
    intro prev
    show (aesEncryptBlock k0 mid kf (arkB b prev) ::
      cbcEnc k0 mid kf (aesEncryptBlock k0 mid kf (arkB b prev)) bs).length = _
    rw [List.length_cons, ih, List.length_cons]

theorem length16_decomp (l : List Byte) (h : 16 ≤ l.length) :
    ∃ b0 b1 b2 b3 b4 b5 b6 b7 b8 b9 b10 b11 b12 b13 b14 b15 rest,
      l = b0 :: b1 :: b2 :: b3 :: b4 :: b5 :: b6 :: b7 :: b8 :: b9 :: b10 ::
        b11 :: b12 :: b13 :: b14 :: b15 :: rest :=
  match l, h with
  | b0 :: b1 :: b2 :: b3 :: b4 :: b5 :: b6 :: b7 :: b8 :: b9 :: b10 :: b11 ::
      b12 :: b13 :: b14 :: b15 :: rest, _ =>
    ⟨b0, b1, b2, b3, b4, b5, b6, b7, b8, b9, b10, b11, b12, b13, b14, b15,
      rest, rfl⟩

theorem fromBlocks_toBlocks_aux :
    ∀ (n : Nat) (l : List Byte), l.length ≤ n → l.length % 16 = 0 →
      fromBlocks (toBlocks l) = l := by
  intro n
  induction n with
  | zero =>
    intro l hl h
    have hnil : l = [] := List.length_eq_zero.mp (by omega)
    subst hnil
    rfl
  | succ n ih =>
    intro l hl h
    by_cases hnil : l = []
    · subst hnil; rfl
    · have hlen : 16 ≤ l.length := by
        rcases Nat.eq_zero_or_pos l.length with h0 | hpos
        · exact absurd (List.length_eq_zero.mp h0) hnil
        · omega
      obtain ⟨b0, b1, b2, b3, b4, b5, b6, b7, b8, b9, b10, b11, b12, b13,
        b14, b15, rest, rfl⟩ := length16_decomp l hlen
      have hrest : rest.length % 16 = 0 := by
        simp only [List.length_cons] at h
        omega
      have hrl : rest.length ≤ n := by
        simp only [List.length_cons] at hl
        omega
      have ihr := ih rest hrl hrest
      show listOfBlock (B16.mk b0 b1 b2 b3 b4 b5 b6 b7 b8 b9 b10 b11 b12 b13
        b14 b15) ++ fromBlocks (toBlocks rest) = _
      rw [ihr]
      rfl

theorem fromBlocks_toBlocks (l : List Byte) (h : l.length % 16 = 0) :
    fromBlocks (toBlocks l) = l :=
  fromBlocks_toBlocks_aux l.length l le_rfl h

theorem pkcs7pad_length (l : List Byte) :
    (pkcs7pad l).length = l.length + (16 - l.length % 16) := by
  unfold pkcs7pad
  rw [List.length_append, List.length_replicate]

theorem pkcs7pad_length_mod (l : List Byte) : (pkcs7pad l).length % 16 = 0 := by
  rw [pkcs7pad_length]
  omega

theorem pkcs7unpad_pad (l : List Byte) : pkcs7unpad (pkcs7pad l) = some l := by
  obtain ⟨m, hm⟩ : ∃ m, 16 - l.length % 16 = m + 1 :=
    ⟨15 - l.length % 16, by omega⟩
  have hk16 : m + 1 ≤ 16 := by omega
  have hmkval : (mkByte (m + 1)).val = m + 1 := Nat.mod_eq_of_lt (by omega)
  unfold pkcs7pad pkcs7unpad
  dsimp only
  rw [hm]
  have hlast : (l ++ List.replicate (m + 1) (mkByte (m + 1))).getLastD 0 =
      mkByte (m + 1) := by
    rw [List.replicate_succ', ← List.append_assoc, List.getLastD_concat]
  have hlen : (l ++ List.replicate (m + 1) (mkByte (m + 1))).length =
      l.length + (m + 1) := by
    rw [List.length_append, List.length_replicate]
  rw [hlast, hmkval, hlen]
  rw [if_neg (by omega)]
  have harith : l.length + (m + 1) - (m + 1) = l.length := by omega
  rw [harith, List.drop_left, List.take_left]
  have hall : (List.replicate (m + 1) (mkByte (m + 1))).all
      (fun x => x.val == m + 1) = true := by
    rw [List.all_eq_true]
    intro x hx
    rw [List.eq_of_mem_replicate hx]
    simp [hmkval]
  rw [if_pos hall]

theorem randomSalt8_length (entropy : List Byte) :
    (randomSalt8 entropy).length = 8 := by
  unfold randomSalt8
  rw [List.length_take, List.length_append, List.length_replicate]
  omega

/-- Zeta-expanded form of `encryptData`. -/
theorem encryptData_eq (data password entropy : List Byte) :
    encryptData data password entropy =
      saltedMarker ++ randomSalt8 entropy ++
        fromBlocks (cbcEnc
          (aesKeySchedule (deriveKeyAndIV password (randomSalt8 entropy)).1).1
          (aesKeySchedule (deriveKeyAndIV password (randomSalt8 entropy)).1).2.1
          (aesKeySchedule (deriveKeyAndIV password (randomSalt8 entropy)).1).2.2
          (blockOfList (deriveKeyAndIV password (randomSalt8 entropy)).2)
          (toBlocks (pkcs7pad data))) := rfl

/-- Behaviour of `decryptData` on a well-formed envelope. -/
theorem decryptData_append (salt ct password : List Byte)
    (hs : salt.length = 8) (h0 : ct.length ≠ 0) (h16 : ct.length % 16 = 0) :
    decryptData (saltedMarker ++ salt ++ ct) password =
      match pkcs7unpad (fromBlocks (cbcDec
          (aesKeySchedule (deriveKeyAndIV password salt).1).1
          (aesKeySchedule (deriveKeyAndIV password salt).1).2.1
          (aesKeySchedule (deriveKeyAndIV password salt).1).2.2
          (blockOfList (deriveKeyAndIV password salt).2)
          (toBlocks ct))) with
      | some pt => Except.ok pt
      | none => Except.error "OperationError" := by
  have htake : (saltedMarker ++ salt ++ ct).take 8 = saltedMarker := by
    rw [List.append_assoc]
    exact List.take_left' rfl
  have hdrop16 : (saltedMarker ++ salt ++ ct).drop 16 = ct :=
    List.drop_left' (by rw [List.length_append, hs]; rfl)
  have hsaltx : ((saltedMarker ++ salt ++ ct).drop 8).take 8 = salt := by
    rw [List.append_assoc, List.drop_left' (show saltedMarker.length = 8 from rfl)]
    exact List.take_left' hs
  unfold decryptData
  have hc1 : ¬((saltedMarker ++ salt ++ ct).take 8 ≠ saltedMarker) := by
    rw [htake]
    exact fun hne => hne rfl
  rw [if_neg hc1]
  dsimp only
  rw [hsaltx, hdrop16]
  have hc2 : ¬(ct.length = 0 ∨ ct.length % 16 ≠ 0) := by
    push_neg
    exact ⟨h0, h16⟩
  rw [if_neg hc2]

/-- C2: the encryption round trip. For every plaintext byte sequence, every
password (as its UTF-8 bytes) and every salt draw, decryptData inverts
encryptData exactly. -/
theorem encrypt_decrypt_roundtrip (data password entropy : List Byte) :
    decryptData (encryptData data password entropy) password =
      Except.ok data := by
  have hpadpos : 1 ≤ (pkcs7pad data).length := by
    rw [pkcs7pad_length]
    omega
  have hblocks : 16 * (toBlocks (pkcs7pad data)).length =
      (pkcs7pad data).length := by
    have hfb := fromBlocks_toBlocks (pkcs7pad data) (pkcs7pad_length_mod data)
    calc 16 * (toBlocks (pkcs7pad data)).length
        = (fromBlocks (toBlocks (pkcs7pad data))).length :=
          (fromBlocks_length _).symm
      _ = (pkcs7pad data).length := by rw [hfb]
  have hctlen : (fromBlocks (cbcEnc
      (aesKeySchedule (deriveKeyAndIV password (randomSalt8 entropy)).1).1
      (aesKeySchedule (deriveKeyAndIV password (randomSalt8 entropy)).1).2.1
      (aesKeySchedule (deriveKeyAndIV password (randomSalt8 entropy)).1).2.2
      (blockOfList (deriveKeyAndIV password (randomSalt8 entropy)).2)
      (toBlocks (pkcs7pad data)))).length =
      16 * (toBlocks (pkcs7pad data)).length := by
    rw [fromBlocks_length, cbcEnc_length]
  rw [encryptData_eq]
  rw [decryptData_append _ _ _ (randomSalt8_length entropy)
    (by omega) (by omega)]
  rw [toBlocks_fromBlocks, cbcDec_cbcEnc,
    fromBlocks_toBlocks _ (pkcs7pad_length_mod data), pkcs7unpad_pad]

/-- C9: envelope shape and length. The envelope is the 8-byte marker, the
8-byte salt, then the PKCS#7-padded AES-256-CBC ciphertext, whose padding
always adds at least one byte and a whole block on 16-byte multiples:
total length 16 + 16 * (n / 16 + 1) for an n-byte plaintext (so an empty
plaintext gives 32 bytes). -/
theorem encryptData_envelope (data password entropy : List Byte) :
    (encryptData data password entropy).length =
      16 + 16 * (data.length / 16 + 1) ∧
    (encryptData data password entropy).take 8 = saltedMarker ∧
    ((encryptData data password entropy).drop 8).take 8 =
      randomSalt8 entropy ∧
    (data.length = 0 → (encryptData data password entropy).length = 32) := by
  have hblocks : 16 * (toBlocks (pkcs7pad data)).length =
      (pkcs7pad data).length := by
    have hfb := fromBlocks_toBlocks (pkcs7pad data) (pkcs7pad_length_mod data)
    calc 16 * (toBlocks (pkcs7pad data)).length
        = (fromBlocks (toBlocks (pkcs7pad data))).length :=
          (fromBlocks_length _).symm
      _ = (pkcs7pad data).length := by rw [hfb]
  have hlen : (encryptData data password entropy).length =
      16 + 16 * (data.length / 16 + 1) := by
    rw [encryptData_eq, List.length_append, List.length_append,
      fromBlocks_length, cbcEnc_length, randomSalt8_length]
    have hpad := pkcs7pad_length data
    have hml : saltedMarker.length = 8 := rfl
    rw [hml]
    omega
  refine ⟨hlen, ?_, ?_, fun hz => by rw [hlen, hz]⟩
  · rw [encryptData_eq, List.append_assoc]
    exact List.take_left' rfl
  · rw [encryptData_eq, List.append_assoc,
      List.drop_left' (show saltedMarker.length = 8 from rfl)]
    exact List.take_left' (randomSalt8_length entropy)

/-- Witness for C9's empty-plaintext conjunct: a 0-byte plaintext yields a
32-byte envelope. -/
theorem encryptData_envelope_witness :
    (([] : List Byte).length = 0) ∧
    (encryptData [] [] []).length = 32 :=
  ⟨rfl, (encryptData_envelope [] [] []).2.2.2 rfl⟩
